import Mathlib

/-!
Verification of the MinuteMind LLM-response extraction and validation
pipeline against its specification.

The development shallowly embeds the Python core of the repository:

* `extract_json_from_text`, `validate_meeting_data`, `send_to_ollama`
  (src/app/ollama_handler.py),
* `validate_meeting_input` and the POST branch of `create_meeting`
  (src/app/routes.py),
* the configured length bounds (src/config.py).

Python strings are embedded as `List Char` (sequences of Unicode scalar
values).  Python JSON values are embedded as `JVal`, with numbers
restricted to the integer fragment: float literals, `NaN` and
`Infinity` produce Python floats, which lie outside the embedded
domain, so the embedded parser rejects them.  Python `None` and JSON
`null` are one and the same Python value; both are embedded as
`JVal.null`.
-/

namespace MinuteMind

set_option maxHeartbeats 1000000
set_option maxRecDepth 20000

/-! ## Python string helpers -/

/-- Whitespace stripped by Python `str.strip()` (ASCII fragment: the
space, tab, newline, carriage-return, vertical-tab and form-feed
characters; non-ASCII Unicode whitespace lies outside the embedded
domain). -/
def pyIsSpace (c : Char) : Bool :=
  c == ' ' || c == '\t' || c == '\n' || c == '\r' || c == '\x0b' || c == '\x0c'

/-- Python `str.strip()`: remove leading and trailing whitespace. -/
def pyStrip (l : List Char) : List Char :=
  ((l.dropWhile pyIsSpace).reverse.dropWhile pyIsSpace).reverse

/-- Python `str.split()` with no arguments: split on runs of whitespace,
discarding empty pieces. -/
def pySplit (l : List Char) : List (List Char) :=
  (l.splitOnP pyIsSpace).filter (fun w => !w.isEmpty)

/-- An ASCII decimal digit. -/
def isDigitC (c : Char) : Bool := 48 ≤ c.toNat && c.toNat ≤ 57

/-- Python `str.isalpha` on a single character (ASCII fragment). -/
def pyIsAlphaChar (c : Char) : Bool :=
  (65 ≤ c.toNat && c.toNat ≤ 90) || (97 ≤ c.toNat && c.toNat ≤ 122)

/-- Python `str.isalpha`: nonempty and every character alphabetic. -/
def pyIsAlphaStr (w : List Char) : Bool := !w.isEmpty && w.all pyIsAlphaChar

/-! ## The embedded JSON value type -/

/-- Embedded Python values produced by `json.loads`: JSON null (= Python
`None`), booleans, integers, strings, lists and string-keyed dicts
(association lists in insertion order; `json.loads` never produces
duplicate keys). -/
inductive JVal where
  | null
  | bool (b : Bool)
  | num (n : Int)
  | str (s : String)
  | arr (elems : List JVal)
  | obj (entries : List (String × JVal))

/-- Python `isinstance(v, list)`. -/
def JVal.isArr : JVal → Bool
  | .arr _ => true
  | _ => false

/-- Python `isinstance(v, dict)`. -/
def JVal.isObj : JVal → Bool
  | .obj _ => true
  | _ => false

/-- Python `v is None` (JSON null is Python `None`). -/
def JVal.isNull : JVal → Bool
  | .null => true
  | _ => false

/-- Python `len` of a list value (only ever applied to lists). -/
def JVal.arrLen : JVal → Nat
  | .arr l => l.length
  | _ => 0

/-- Python dict lookup `m[k]` / `k in m` support on the association
list (first match; parsed dicts never contain duplicate keys). -/
def jLookup (m : List (String × JVal)) (k : String) : Option JVal :=
  match m with
  | [] => none
  | (k1, v) :: tl => if k1 = k then some v else jLookup tl k

/-- Python dict insertion `d[k] = v`: replace in place if the key is
present, else append. -/
def insertKV (m : List (String × JVal)) (k : String) (v : JVal) :
    List (String × JVal) :=
  match m with
  | [] => [(k, v)]
  | (k1, v1) :: tl => if k1 = k then (k, v) :: tl else (k1, v1) :: insertKV tl k v

/-! ## The embedded `json.loads`

A fuel-based recursive-descent scanner for the JSON grammar accepted by
the Python `json` module, on the integer fragment (see the header).
The fuel only bounds the recursion depth of the mutual scanner; every
two nested calls consume at least one input character, so the fuel
`2 * length + 2` supplied by `json_loads` is never exhausted. -/

/-- JSON inter-token whitespace (the Python decoder skips exactly
space, tab, newline and carriage return between tokens). -/
def jsonWs (c : Char) : Bool :=
  let k := c.toNat
  k == 32 || k == 9 || k == 10 || k == 13

def skipWs (l : List Char) : List Char := l.dropWhile jsonWs

/-- Value of a hexadecimal digit, as in the decoder of `\uXXXX` escapes. -/
def hexVal (c : Char) : Option Nat :=
  let k := c.toNat
  if 48 ≤ k ∧ k ≤ 57 then some (k - 48)
  else if 97 ≤ k ∧ k ≤ 102 then some (k - 87)
  else if 65 ≤ k ∧ k ≤ 70 then some (k - 55)
  else none

/-- Body of a JSON string after the opening quote: returns the decoded
characters and the input after the closing quote.  Escapes and the
rejection of raw control characters follow the strict Python decoder;
`\uXXXX` escapes decode surrogate pairs, and lone surrogates (which
Python would keep in its strings) lie outside the embedded `Char`
domain and make the embedded scanner fail. -/
def parseStringBody : Nat → List Char → Option (List Char × List Char)
  | 0, _ => none
  | _ + 1, [] => none
  | _ + 1, '"' :: r => some ([], r)
  | f + 1, '\\' :: r =>
    match r with
    | '"' :: r2 => (parseStringBody f r2).map (fun p => ('"' :: p.1, p.2))
    | '\\' :: r2 => (parseStringBody f r2).map (fun p => ('\\' :: p.1, p.2))
    | '/' :: r2 => (parseStringBody f r2).map (fun p => ('/' :: p.1, p.2))
    | 'b' :: r2 => (parseStringBody f r2).map (fun p => ('\x08' :: p.1, p.2))
    | 'f' :: r2 => (parseStringBody f r2).map (fun p => ('\x0c' :: p.1, p.2))
    | 'n' :: r2 => (parseStringBody f r2).map (fun p => ('\n' :: p.1, p.2))
    | 'r' :: r2 => (parseStringBody f r2).map (fun p => ('\x0d' :: p.1, p.2))
    | 't' :: r2 => (parseStringBody f r2).map (fun p => ('\t' :: p.1, p.2))
    | 'u' :: h1 :: h2 :: h3 :: h4 :: r2 =>
      match hexVal h1, hexVal h2, hexVal h3, hexVal h4 with
      | some v1, some v2, some v3, some v4 =>
        let n := ((v1 * 16 + v2) * 16 + v3) * 16 + v4
        if 0xD800 ≤ n && n < 0xDC00 then
          match r2 with
          | '\\' :: 'u' :: g1 :: g2 :: g3 :: g4 :: r3 =>
            match hexVal g1, hexVal g2, hexVal g3, hexVal g4 with
            | some w1, some w2, some w3, some w4 =>
              let m := ((w1 * 16 + w2) * 16 + w3) * 16 + w4
              if 0xDC00 ≤ m && m < 0xE000 then
                (parseStringBody f r3).map
                  (fun p =>
                    (Char.ofNat (0x10000 + (n - 0xD800) * 0x400 + (m - 0xDC00)) :: p.1,
                     p.2))
              else none
            | _, _, _, _ => none
          | _ => none
        else if 0xDC00 ≤ n && n < 0xE000 then none
        else (parseStringBody f r2).map (fun p => (Char.ofNat n :: p.1, p.2))
      | _, _, _, _ => none
    | _ => none
  | f + 1, c :: r =>
    if c.toNat < 0x20 then none
    else (parseStringBody f r).map (fun p => (c :: p.1, p.2))

def digitsToNat (ds : List Char) : Nat :=
  ds.foldl (fun a c => a * 10 + (c.toNat - 48)) 0

/-- A maximal digit run, rejecting leading zeros as the Python grammar
`0|[1-9][0-9]*` does. -/
def parseIntDigits (s : List Char) : Option (Nat × List Char) :=
  match s.takeWhile isDigitC, s.dropWhile isDigitC with
  | [], _ => none
  | d :: ds, r =>
    if d == '0' && !ds.isEmpty then none
    else some (digitsToNat (d :: ds), r)

/-- A fraction or exponent would start here, making the literal a
Python float, outside the embedded integer fragment. -/
def floatFollows : List Char → Bool
  | [] => false
  | c :: _ => c == '.' || c == 'e' || c == 'E'

/-- A JSON number literal in the integer fragment. -/
def parseNumber : List Char → Option (Int × List Char)
  | '-' :: s =>
    match parseIntDigits s with
    | some (n, r) => if floatFollows r then none else some (-(n : Int), r)
    | none => none
  | s =>
    match parseIntDigits s with
    | some (n, r) => if floatFollows r then none else some ((n : Int), r)
    | none => none

mutual

/-- One JSON value (the caller has already skipped whitespace, exactly
as the Python decoder does at every value position): literals, strings,
numbers, and delegating to the member and item loops for containers. -/
def pValue : Nat → List Char → Option (JVal × List Char)
  | 0, _ => none
  | f + 1, s =>
    match s with
    | [] => none
    | c :: r =>
      if c == '"' then
        match parseStringBody (r.length + 1) r with
        | some (cs, r2) => some (.str (String.mk cs), r2)
        | none => none
      else if c == '{' then
        match skipWs r with
        | '}' :: r2 => some (.obj [], r2)
        | r1 => pMembers f r1 []
      else if c == '[' then
        match skipWs r with
        | ']' :: r2 => some (.arr [], r2)
        | r1 => pItems f r1 []
      else if c == 't' then
        match r with
        | 'r' :: 'u' :: 'e' :: r2 => some (.bool true, r2)
        | _ => none
      else if c == 'f' then
        match r with
        | 'a' :: 'l' :: 's' :: 'e' :: r2 => some (.bool false, r2)
        | _ => none
      else if c == 'n' then
        match r with
        | 'u' :: 'l' :: 'l' :: r2 => some (.null, r2)
        | _ => none
      else if c == '-' || isDigitC c then
        match parseNumber (c :: r) with
        | some (n, r2) => some (.num n, r2)
        | none => none
      else none

/-- The object-member loop: a quoted key, a colon, a value, then either
a comma (continue) or a closing brace. -/
def pMembers : Nat → List Char → List (String × JVal) →
    Option (JVal × List Char)
  | 0, _, _ => none
  | f + 1, s, acc =>
    match s with
    | '"' :: r =>
      match parseStringBody (r.length + 1) r with
      | some (k, r2) =>
        match skipWs r2 with
        | ':' :: r3 =>
          match pValue f (skipWs r3) with
          | some (v, r4) =>
            match skipWs r4 with
            | ',' :: r5 => pMembers f (skipWs r5) (insertKV acc (String.mk k) v)
            | '}' :: r5 => some (.obj (insertKV acc (String.mk k) v), r5)
            | _ => none
          | none => none
        | _ => none
      | none => none
    | _ => none

/-- The array-item loop: a value, then either a comma (continue) or a
closing bracket. -/
def pItems : Nat → List Char → List JVal → Option (JVal × List Char)
  | 0, _, _ => none
  | f + 1, s, acc =>
    match pValue f s with
    | some (v, r) =>
      match skipWs r with
      | ',' :: r2 => pItems f (skipWs r2) (acc ++ [v])
      | ']' :: r2 => some (.arr (acc ++ [v]), r2)
      | _ => none
    | none => none

end

/-- The embedded `json.loads`: parse one value and require only
whitespace to follow (Python raises `Extra data` otherwise); `none`
models the raised `JSONDecodeError`. -/
def json_loads (s : List Char) : Option JVal :=
  match pValue (2 * s.length + 2) (skipWs s) with
  | some (v, r) => if skipWs r = [] then some v else none
  | none => none

/-! ## `extract_json_from_text` (src/app/ollama_handler.py, lines 89-110) -/

/-- Index of the first occurrence, Python `str.find` (with `none` for -1). -/
def pyFind (l : List Char) (c : Char) : Option Nat :=
  l.findIdx? (fun x => x == c)

/-- Index of the last occurrence, Python `str.rfind` (with `none` for -1). -/
def pyRfind (l : List Char) (c : Char) : Option Nat :=
  match l.reverse.findIdx? (fun x => x == c) with
  | some i => some (l.length - 1 - i)
  | none => none

/-- Embedding of `extract_json_from_text`.  The Python function returns
the parsed value, or `None` when both parse attempts fail or no brace
pair exists; since `json.loads` also maps the JSON text `null` to
Python `None`, the result type is one `JVal`, with `JVal.null` playing
the role of Python `None`.  The second tier slices `text[start:end]`
with `start = text.find(chr(123))` and `end = text.rfind(chr(125)) + 1`,
guarded by `start != -1 and end != 0`. -/
def extract_json_from_text (text : List Char) : JVal :=
  match json_loads text with
  | some v => v
  | none =>
    match pyFind text '{', pyRfind text '}' with
    | some s, some e =>
      match json_loads ((text.drop s).take (e + 1 - s)) with
      | some v => v
      | none => .null
    | _, _ => .null

/-! ## `validate_meeting_data` (src/app/ollama_handler.py, lines 113-151) -/

def required_fields : List String :=
  ["meeting_time", "participants", "topics", "action_items"]

/-- Python dict subscript after a presence check (the default is never
reached on the paths where it is used). -/
def jGetD (m : List (String × JVal)) (k : String) : JVal :=
  (jLookup m k).getD .null

/-- Embedding of `validate_meeting_data`: the `isinstance(data, dict)`
gate, the presence loop over `required_fields` in order, the three
list-type checks, and the two non-emptiness checks, each returning the
message of the source. -/
def validate_meeting_data (data : JVal) : Bool × String :=
  match data with
  | .obj m =>
    match required_fields.find? (fun f => (jLookup m f).isNone) with
    | some f => (false, ("Missing required field: " ++ f))
    | none =>
      if !(jGetD m ("participants")).isArr then
        (false, ("Participants must be a list"))
      else if !(jGetD m ("topics")).isArr then
        (false, ("Topics must be a list"))
      else if !(jGetD m ("action_items")).isArr then
        (false, ("Action items must be a list"))
      else if (jGetD m ("participants")).arrLen = 0 then
        (false, ("At least one participant is required"))
      else if (jGetD m ("topics")).arrLen = 0 then
        (false, ("At least one topic is required"))
      else (true, ("Valid"))
  | _ => (false, ("Invalid data format"))

/-! ## `validate_meeting_input` (src/app/routes.py, lines 12-47) and the
configured bounds (src/config.py). -/

/-- Default of `Config.MIN_TEXT_LENGTH`. -/
def MIN_TEXT_LENGTH : Nat := 50

/-- Default of `Config.MAX_TEXT_LENGTH`. -/
def MAX_TEXT_LENGTH : Nat := 10000

/-- `len(set(text.replace(chr(32), s).replace(chr(10), s).replace(chr(9), s)))`
with `s` empty: the number of distinct characters ignoring space,
newline and tab. -/
def uniqueCharCount (t : List Char) : Nat :=
  ((t.filter (fun c => !(c == ' ' || c == '\n' || c == '\t'))).dedup).length

/-- The list comprehension of line 38: whitespace-split tokens longer
than 2 characters and purely alphabetic. -/
def realWordCount (t : List Char) : Nat :=
  ((pySplit t).filter (fun w => decide (w.length > 2) && pyIsAlphaStr w)).length

/-- `sum(c.isalpha() for c in text)`. -/
def alphaCount (t : List Char) : Nat := t.countP pyIsAlphaChar

/-- Embedding of `validate_meeting_input`, parameterized by the two
configured thresholds.  The comparison of line 44 is
`alpha_chars < len(text) * 0.3` on an IEEE double; for the integer
operands that occur here (lengths at most 10000 after the earlier
checks) it decides exactly the rational comparison
`10 * alpha_chars < 3 * len(text)`, which is how it is embedded. -/
def validate_meeting_input (minLen maxLen : Nat) (text : List Char) :
    Bool × Option String :=
  if text.isEmpty || (pyStrip text).isEmpty then
    (false, some ("Please enter meeting notes"))
  else
    let t := pyStrip text
    if t.length < minLen then
      (false, some ("Meeting notes too short. Please enter at least " ++
        toString minLen ++ " characters."))
    else if t.length > maxLen then
      (false, some ("Meeting notes too long. Maximum " ++ toString maxLen ++
        " characters allowed."))
    else if uniqueCharCount t < 10 then
      (false, some ("Please enter meaningful meeting notes with actual content (not just repeated characters)."))
    else if realWordCount t < 10 then
      (false, some ("Please enter at least 10 meaningful words in your meeting notes."))
    else if 10 * alphaCount t < 3 * t.length then
      (false, some ("Meeting notes should contain actual text, not just symbols."))
    else (true, none)

/-! ## `send_to_ollama` (src/app/ollama_handler.py, lines 7-86)

The file system and the network are external to the core; the model
client is embedded as a function of the request environment: the prompt
template file (or its absence) and the outcome of the single HTTP
request. -/

/-- Outcome of `requests.post` as `send_to_ollama` observes it: the
timeout exception, the connection-refused exception, any other
exception, or a response with a status code and a body.  Ollama bodies
are JSON objects; `body = none` models a 200 body on which
`response.json()` raises (caught by the final generic handler). -/
inductive HttpResult where
  | timeout
  | connectionError
  | otherException
  | response (statusCode : Nat) (body : Option (List (String × JVal)))

/-- Environment of one `send_to_ollama` call. -/
structure OllamaEnv where
  template : Option String
  http : HttpResult

/-- Embedding of `send_to_ollama`: returns the Python pair
`(json_data_or_None, error_message_or_None)` together with a flag
recording whether `extract_json_from_text` was invoked.  A `response`
value of the Ollama body that is not a string makes both parse attempts
inside `extract_json_from_text` raise, which its handlers turn into
`None`. -/
def send_to_ollama (env : OllamaEnv) : (JVal × Option String) × Bool :=
  match env.template with
  | none =>
    ((.null, some ("Prompt template file is missing. Please contact administrator.")), false)
  | some _ =>
    match env.http with
    | .timeout =>
      ((.null, some ("Request took too long. Please try with shorter meeting notes.")), false)
    | .connectionError =>
      ((.null, some ("Cannot connect to AI service. Make sure Ollama is running.")), false)
    | .otherException =>
      ((.null, some ("An unexpected error occurred. Please try again.")), false)
    | .response code body =>
      if code ≠ 200 then
        ((.null, some ("AI service is having issues. Please try again later.")), false)
      else
        match body with
        | none =>
          ((.null, some ("An unexpected error occurred. Please try again.")), false)
        | some result =>
          match jLookup result ("response") with
          | none =>
            ((.null, some ("Unexpected response from AI. Please try again.")), false)
          | some rv =>
            let json_data :=
              match rv with
              | .str s => extract_json_from_text s.data
              | _ => .null
            if json_data.isNull then
              ((.null, some ("AI couldn\x27t extract structured data. Please try rephrasing your notes.")), true)
            else ((json_data, none), true)

/-! ## The POST branch of `create_meeting` (src/app/routes.py, lines 57-130)

PDF rendering and the database are external collaborators; the route is
embedded as a function of their outcomes, recording every call made to
them as an event. -/

/-- Calls the route makes to its downstream collaborators. -/
inductive Event where
  | callOllama
  | callGeneratePdf (data : JVal) (filename : String)
  | callAddMeeting (data : JVal) (filename : String) (raised : Bool)

/-- The HTTP response the route produces. -/
inductive Response where
  | redirectCreate (flashMsg : String)
  | renderResult (data : JVal) (pdfFilename : String) (flashMsg : String)

/-- Environment of one POST request to `/create`. -/
structure PipelineEnv where
  ollama : OllamaEnv
  /-- Error returned by `generate_pdf`, `none` on success. -/
  pdfError : Option String
  /-- The generated random output filename. -/
  filename : String
  /-- Whether `add_meeting` raises. -/
  dbRaises : Bool

/-- Embedding of the POST branch of `create_meeting`: strip the form
field, run the input validator, the model client (including extraction),
the schema validator, PDF generation, and the best-effort database save
whose exception is caught and only logged. -/
def create_meeting_post (formNotes : List Char) (env : PipelineEnv) :
    Response × List Event :=
  let meeting_notes := pyStrip formNotes
  let (is_valid, error_message) :=
    validate_meeting_input MIN_TEXT_LENGTH MAX_TEXT_LENGTH meeting_notes
  if !is_valid then
    (.redirectCreate (error_message.getD ("")), [])
  else
    let ((meeting_data, err), _) := send_to_ollama env.ollama
    match err with
    | some e => (.redirectCreate e, [.callOllama])
    | none =>
      if meeting_data.isNull then
        (.redirectCreate ("Failed to process meeting notes. Please try again."), [.callOllama])
      else
        let (ok, message) := validate_meeting_data meeting_data
        if !ok then
          (.redirectCreate ("Data validation failed: " ++ message), [.callOllama])
        else
          match env.pdfError with
          | some e =>
            (.redirectCreate e, [.callOllama, .callGeneratePdf meeting_data env.filename])
          | none =>
            (.renderResult meeting_data env.filename ("Meeting report generated successfully!"),
             [.callOllama, .callGeneratePdf meeting_data env.filename,
              .callAddMeeting meeting_data env.filename env.dbRaises])

/-! ## A JSON serializer

Modelled from the spec: section 8 states the round-trip property
"for any valid structured object O, extract(serialize(O)) == O" where
`serialize` is standard JSON serialization; no serializer exists in the
repository, so it is modelled here (compact separators, literal
non-ASCII characters, `\uXXXX` escapes for control characters). -/

/-- Decimal digits of a natural number, most significant first (the
fuel argument only bounds the recursion; `natDigs` supplies enough). -/
def natDigsF : Nat → Nat → List Char
  | 0, _ => []
  | f + 1, n =>
    if n < 10 then [Nat.digitChar n]
    else natDigsF f (n / 10) ++ [Nat.digitChar (n % 10)]

def natDigs (n : Nat) : List Char := natDigsF (n + 1) n

/-- Decimal representation of an integer. -/
def serInt : Int → List Char
  | .ofNat m => natDigs m
  | .negSucc m => '-' :: natDigs (m + 1)

/-- Serialization of one string character: escape the quote, the
backslash and control characters, emit everything else literally. -/
def escChar (c : Char) : List Char :=
  if c == '"' then ['\\', '"']
  else if c == '\\' then ['\\', '\\']
  else if c.toNat < 0x20 then
    ['\\', 'u', '0', '0', Nat.digitChar (c.toNat / 16), Nat.digitChar (c.toNat % 16)]
  else [c]

def escString (s : List Char) : List Char :=
  s.foldr (fun c acc => escChar c ++ acc) []

mutual

/-- Modelled from the spec: standard JSON serialization of a value. -/
def serV : JVal → List Char
  | .null => ['n', 'u', 'l', 'l']
  | .bool b => cond b ['t', 'r', 'u', 'e'] ['f', 'a', 'l', 's', 'e']
  | .num n => serInt n
  | .str s => '"' :: (escString s.data ++ ['"'])
  | .arr [] => ['[', ']']
  | .arr (v :: vs) => '[' :: (serV v ++ serArrTail vs)
  | .obj [] => ['{', '}']
  | .obj ((k, v) :: ms) =>
    '{' :: '"' :: (escString k.data ++ ('"' :: ':' :: (serV v ++ serObjTail ms)))

def serArrTail : List JVal → List Char
  | [] => [']']
  | v :: vs => ',' :: (serV v ++ serArrTail vs)

def serObjTail : List (String × JVal) → List Char
  | [] => ['}']
  | (k, v) :: ms =>
    ',' :: '"' :: (escString k.data ++ ('"' :: ':' :: (serV v ++ serObjTail ms)))

end

/-- Keys of an object are pairwise distinct (true of every Python dict). -/
def noDupKeys : List (String × JVal) → Bool
  | [] => true
  | (k, _) :: ms => !(ms.any (fun p => p.1 == k)) && noDupKeys ms

mutual

/-- A valid structured value: every object node has pairwise distinct
keys, as any value produced from a Python dict does. -/
def jvalWF : JVal → Bool
  | .null => true
  | .bool _ => true
  | .num _ => true
  | .str _ => true
  | .arr l => jvalWFL l
  | .obj m => noDupKeys m && jvalWFM m

def jvalWFL : List JVal → Bool
  | [] => true
  | v :: vs => jvalWF v && jvalWFL vs

def jvalWFM : List (String × JVal) → Bool
  | [] => true
  | (_, v) :: ms => jvalWF v && jvalWFM ms

end

mutual

/-- Recursion-depth budget a value costs the scanner; used only to
discharge the fuel in the round-trip proof. -/
def jsize : JVal → Nat
  | .null => 1
  | .bool _ => 1
  | .num _ => 1
  | .str _ => 1
  | .arr l => 1 + jsizeL l
  | .obj m => 1 + jsizeM m

def jsizeL : List JVal → Nat
  | [] => 0
  | v :: vs => 1 + jsize v + jsizeL vs

def jsizeM : List (String × JVal) → Nat
  | [] => 0
  | (_, v) :: ms => 1 + jsize v + jsizeM ms

end

/-! ## Lemmas: list scanning -/

theorem takeWhile_append_sat (p : Char → Bool) (l r : List Char)
    (hl : ∀ c ∈ l, p c = true)
    (hr : ∀ c t, r = c :: t → p c = false) :
    (l ++ r).takeWhile p = l ∧ (l ++ r).dropWhile p = r := by
  induction l with
  | nil =>
    cases r with
    | nil => simp
    | cons c t => simp [List.takeWhile_cons, List.dropWhile_cons, hr c t rfl]
  | cons a l ih =>
    have ha : p a = true := hl a (by simp)
    have hih := ih (fun c hc => hl c (by simp [hc]))
    simp [List.takeWhile_cons, List.dropWhile_cons, ha, hih.1, hih.2]

theorem skipWs_cons_false {c : Char} (h : jsonWs c = false) (r : List Char) :
    skipWs (c :: r) = c :: r := by
  simp [skipWs, List.dropWhile_cons, h]

/-! ## Lemmas: decimal digits -/

theorem digitChar_spec : ∀ m, m < 10 →
    isDigitC (Nat.digitChar m) = true ∧ (Nat.digitChar m).toNat = 48 + m := by
  decide

theorem digitChar_hexVal : ∀ m, m < 16 → hexVal (Nat.digitChar m) = some m := by
  decide

theorem natDigsF_spec : ∀ f n, n < f →
    digitsToNat (natDigsF f n) = n ∧
    (∀ c ∈ natDigsF f n, isDigitC c = true) ∧
    ∃ d t, natDigsF f n = d :: t ∧ (d = '0' → n = 0 ∧ t = []) := by
  intro f
  induction f with
  | zero => intro n hn; exact absurd hn (by omega)
  | succ g ih =>
    intro n hn
    by_cases h10 : n < 10
    · refine ⟨?_, ?_, Nat.digitChar n, [], ?_, ?_⟩
      · simp [natDigsF, h10, digitsToNat, (digitChar_spec n h10).2]
      · intro c hc
        simp [natDigsF, h10] at hc
        simpa [hc] using (digitChar_spec n h10).1
      · simp [natDigsF, h10]
      · intro h0
        have h1 := (digitChar_spec n h10).2
        rw [h0] at h1
        have h48 : '0'.toNat = 48 := by decide
        rw [h48] at h1
        exact ⟨by omega, rfl⟩
    · have hdiv : n / 10 < g := by
        have h1 : n / 10 < n := Nat.div_lt_self (by omega) (by omega)
        omega
      obtain ⟨hval, hdig, d, t, heq, hzero⟩ := ih (n / 10) hdiv
      have hmod : n % 10 < 10 := Nat.mod_lt n (by omega)
      have hd2 := digitChar_spec (n % 10) hmod
      refine ⟨?_, ?_, d, t ++ [Nat.digitChar (n % 10)], ?_, ?_⟩
      · have : digitsToNat (natDigsF g (n / 10) ++ [Nat.digitChar (n % 10)]) =
            digitsToNat (natDigsF g (n / 10)) * 10 +
              ((Nat.digitChar (n % 10)).toNat - 48) := by
          simp [digitsToNat, List.foldl_append]
        simp only [natDigsF, if_neg h10]
        rw [this, hval, hd2.2]
        omega
      · intro c hc
        simp only [natDigsF, if_neg h10, List.mem_append, List.mem_singleton] at hc
        rcases hc with hc | hc
        · exact hdig c hc
        · simpa [hc] using hd2.1
      · simp only [natDigsF, if_neg h10, heq, List.cons_append]
      · intro h0
        exact absurd ((hzero h0).1) (by omega)

theorem natDigs_spec (n : Nat) :
    digitsToNat (natDigs n) = n ∧
    (∀ c ∈ natDigs n, isDigitC c = true) ∧
    ∃ d t, natDigs n = d :: t ∧ (d = '0' → n = 0 ∧ t = []) :=
  natDigsF_spec (n + 1) n (by omega)

theorem parseIntDigits_append (n : Nat) (rest : List Char)
    (hr : ∀ c t, rest = c :: t → isDigitC c = false) :
    parseIntDigits (natDigs n ++ rest) = some (n, rest) := by
  obtain ⟨hval, hdig, d, t, heq, hzero⟩ := natDigs_spec n
  have tw := takeWhile_append_sat isDigitC (natDigs n) rest hdig hr
  unfold parseIntDigits
  rw [tw.1, tw.2, heq]
  have hguard : (d == '0' && !t.isEmpty) = false := by
    by_cases hd0 : d = '0'
    · have := (hzero hd0).2
      simp [this]
    · simp [hd0]
  simp only [hguard, Bool.false_eq_true, if_false]
  rw [← heq, hval]

/-! ## Lemmas: string escaping round trip -/

theorem parseStringBody_lit (f : Nat) (c : Char) (r : List Char)
    (h1 : c ≠ '"') (h2 : c ≠ '\\') (h3 : ¬ c.toNat < 0x20) :
    parseStringBody (f + 1) (c :: r) =
      (parseStringBody f r).map (fun p => (c :: p.1, p.2)) := by
  rw [parseStringBody.eq_def]
  split
  · omega
  · rename_i heq
    exact absurd heq (by simp)
  · rename_i heq
    simp only [List.cons.injEq] at heq
    exact absurd heq.1 h1
  · rename_i heq
    simp only [List.cons.injEq] at heq
    exact absurd heq.1 h2
  · rename_i a b f2 g d hnd1 hnd2 heqf heqc
    simp only [List.cons.injEq] at heqc
    obtain ⟨rfl, rfl⟩ := And.intro heqc.1.symm heqc.2.symm
    have hff : f2 = f := by omega
    rw [if_neg h3, hff]

theorem escString_cons (c : Char) (cs : List Char) :
    escString (c :: cs) = escChar c ++ escString cs := rfl

theorem hexVal_zero : hexVal '0' = some 0 := by decide

theorem parseStringBody_rt : ∀ (s : List Char) (f : Nat) (rest : List Char),
    (escString s).length + 1 ≤ f →
    parseStringBody f (escString s ++ '"' :: rest) = some (s, rest) := by
  intro s
  induction s with
  | nil =>
    intro f rest hf
    cases f with
    | zero => omega
    | succ g =>
      show parseStringBody (g + 1) (escString [] ++ '"' :: rest) = _
      simp [escString, parseStringBody]
  | cons c cs ih =>
    intro f rest hf
    rw [escString_cons] at hf ⊢
    by_cases h1 : c = '"'
    · subst h1
      have hesc : escChar '"' = ['\\', '"'] := by decide
      rw [hesc] at hf ⊢
      cases f with
      | zero => simp at hf
      | succ g =>
        have hrec : (escString cs).length + 1 ≤ g := by
          rw [List.length_append] at hf
          simp at hf
          omega
        simp only [List.cons_append, List.nil_append]
        simp only [parseStringBody]
        rw [ih g rest hrec]
        rfl
    · by_cases h2 : c = '\\'
      · subst h2
        have hesc : escChar '\\' = ['\\', '\\'] := by decide
        rw [hesc] at hf ⊢
        cases f with
        | zero => simp at hf
        | succ g =>
          have hrec : (escString cs).length + 1 ≤ g := by
            rw [List.length_append] at hf
            simp at hf
            omega
          simp only [List.cons_append, List.nil_append]
          simp only [parseStringBody]
          rw [ih g rest hrec]
          rfl
      · by_cases h3 : c.toNat < 0x20
        · have hesc : escChar c =
              ['\\', 'u', '0', '0', Nat.digitChar (c.toNat / 16),
               Nat.digitChar (c.toNat % 16)] := by
            unfold escChar
            rw [if_neg (by simp [h1]), if_neg (by simp [h2]), if_pos h3]
          rw [hesc] at hf ⊢
          cases f with
          | zero => simp at hf
          | succ g =>
            have hrec : (escString cs).length + 1 ≤ g := by
              rw [List.length_append] at hf
              simp at hf
              omega
            have hdiv : c.toNat / 16 < 16 := by omega
            have hmod : c.toNat % 16 < 16 := by omega
            simp only [List.cons_append, List.nil_append]
            simp only [parseStringBody]
            rw [hexVal_zero, digitChar_hexVal _ hdiv, digitChar_hexVal _ hmod]
            have hn : ((0 * 16 + 0) * 16 + c.toNat / 16) * 16 + c.toNat % 16 =
                c.toNat := by omega
            simp only [hn]
            rw [if_neg (by simp; omega), if_neg (by simp; omega)]
            rw [ih g rest hrec, Char.ofNat_toNat]
            rfl
        · have hesc : escChar c = [c] := by
            unfold escChar
            rw [if_neg (by simp [h1]), if_neg (by simp [h2]), if_neg h3]
          rw [hesc] at hf ⊢
          cases f with
          | zero => simp at hf
          | succ g =>
            have hrec : (escString cs).length + 1 ≤ g := by
              rw [List.length_append] at hf
              simp at hf
              omega
            simp only [List.cons_append, List.nil_append]
            rw [parseStringBody_lit g c _ h1 h2 h3]
            rw [ih g rest hrec]
            rfl

theorem parseNumber_serInt (i : Int) (rest : List Char)
    (hd : ∀ c t, rest = c :: t → isDigitC c = false)
    (hf : floatFollows rest = false) :
    parseNumber (serInt i ++ rest) = some (i, rest) := by
  cases i with
  | ofNat m =>
    obtain ⟨_, hdig, d, t, heq, _⟩ := natDigs_spec m
    have hdd : isDigitC d = true := hdig d (by rw [heq]; simp)
    unfold parseNumber
    split
    · rename_i s hs
      rw [show serInt (Int.ofNat m) = natDigs m from rfl, heq] at hs
      simp only [List.cons_append, List.cons.injEq] at hs
      have : isDigitC '-' = true := hs.1 ▸ hdd
      exact absurd this (by decide)
    · rename_i hcatch
      rw [show serInt (Int.ofNat m) = natDigs m from rfl,
        parseIntDigits_append m rest hd]
      simp [hf]
  | negSucc m =>
    unfold parseNumber
    split
    · rename_i s hs
      rw [show serInt (Int.negSucc m) = '-' :: natDigs (m + 1) from rfl] at hs
      simp only [List.cons_append, List.cons.injEq, true_and] at hs
      rw [← hs, parseIntDigits_append (m + 1) rest hd]
      simp only [hf, Bool.false_eq_true, if_false, Option.some.injEq, Prod.mk.injEq,
        and_true]
      rw [Int.negSucc_eq]
      push_cast
      ring
    · rename_i hcatch
      exact absurd rfl (hcatch (natDigs (m + 1) ++ rest))

/-! ## Lemmas: the full scanner round trip -/

/-- What may legally follow a serialized number without extending it. -/
def sepOk (r : List Char) : Prop :=
  ∀ c t, r = c :: t →
    isDigitC c = false ∧ (c == '.') = false ∧ (c == 'e') = false ∧ (c == 'E') = false

theorem sepOk_nil : sepOk [] := by
  intro c t h
  exact absurd h (by simp)

theorem sepOk_floatFollows {r : List Char} (h : sepOk r) : floatFollows r = false := by
  cases r with
  | nil => rfl
  | cons c t =>
    obtain ⟨_, h2, h3, h4⟩ := h c t rfl
    simp [floatFollows, h2, h3, h4]

theorem sepOk_digit {r : List Char} (h : sepOk r) :
    ∀ c t, r = c :: t → isDigitC c = false :=
  fun c t he => (h c t he).1

theorem sepOk_serArrTail (xs : List JVal) (rest : List Char) :
    sepOk (serArrTail xs ++ rest) := by
  cases xs with
  | nil =>
    intro c t h
    simp only [serArrTail, List.cons_append, List.nil_append, List.cons.injEq] at h
    rw [← h.1]
    refine ⟨by decide, by decide, by decide, by decide⟩
  | cons y ys =>
    intro c t h
    simp only [serArrTail, List.cons_append, List.cons.injEq] at h
    rw [← h.1]
    refine ⟨by decide, by decide, by decide, by decide⟩

theorem sepOk_serObjTail (ms : List (String × JVal)) (rest : List Char) :
    sepOk (serObjTail ms ++ rest) := by
  cases ms with
  | nil =>
    intro c t h
    simp only [serObjTail, List.cons_append, List.nil_append, List.cons.injEq] at h
    rw [← h.1]
    refine ⟨by decide, by decide, by decide, by decide⟩
  | cons p ps =>
    intro c t h
    obtain ⟨k, v⟩ := p
    simp only [serObjTail, List.cons_append, List.cons.injEq] at h
    rw [← h.1]
    refine ⟨by decide, by decide, by decide, by decide⟩

theorem ne_of_toNat_range {d x : Char} (hlo : 48 ≤ d.toNat) (hhi : d.toNat ≤ 57)
    (hx : x.toNat < 48 ∨ 57 < x.toNat) : d ≠ x := by
  intro he
  subst he
  omega

/-- Every serialized value starts with a character that is not JSON
whitespace and not a closing delimiter. -/
theorem serV_head (v : JVal) :
    ∃ c t, serV v = c :: t ∧ jsonWs c = false ∧ c ≠ '}' ∧ c ≠ ']' := by
  cases v with
  | null => refine ⟨'n', _, rfl, ?_, ?_, ?_⟩ <;> decide
  | bool b =>
    cases b with
    | true => refine ⟨'t', _, rfl, ?_, ?_, ?_⟩ <;> decide
    | false => refine ⟨'f', _, rfl, ?_, ?_, ?_⟩ <;> decide
  | num n =>
    cases n with
    | ofNat m =>
      obtain ⟨_, hdig, d, t, heq, _⟩ := natDigs_spec m
      have hd : isDigitC d = true := hdig d (by rw [heq]; simp)
      simp only [isDigitC, Bool.and_eq_true, decide_eq_true_eq] at hd
      refine ⟨d, t, heq, ?_, ?_, ?_⟩
      · simp only [jsonWs, Bool.or_eq_false_iff, beq_eq_false_iff_ne]
        refine ⟨⟨⟨?_, ?_⟩, ?_⟩, ?_⟩ <;> omega
      · exact ne_of_toNat_range hd.1 hd.2 (by decide)
      · exact ne_of_toNat_range hd.1 hd.2 (by decide)
    | negSucc m => refine ⟨'-', _, rfl, ?_, ?_, ?_⟩ <;> decide
  | str s => refine ⟨'"', _, rfl, ?_, ?_, ?_⟩ <;> decide
  | arr l =>
    cases l with
    | nil => refine ⟨'[', _, rfl, ?_, ?_, ?_⟩ <;> decide
    | cons x xs => refine ⟨'[', _, rfl, ?_, ?_, ?_⟩ <;> decide
  | obj m =>
    cases m with
    | nil => refine ⟨'{', _, rfl, ?_, ?_, ?_⟩ <;> decide
    | cons p ps =>
      obtain ⟨k, v⟩ := p
      refine ⟨'{', _, rfl, ?_, ?_, ?_⟩ <;> decide

theorem noDupKeys_key_notin (acc : List (String × JVal)) (k : String) (v : JVal)
    (tl : List (String × JVal)) (h : noDupKeys (acc ++ (k, v) :: tl) = true) :
    ∀ p ∈ acc, p.1 ≠ k := by
  induction acc with
  | nil => intro p hp; exact absurd hp (by simp)
  | cons a as ih =>
    obtain ⟨ka, va⟩ := a
    rw [List.cons_append] at h
    simp only [noDupKeys, Bool.and_eq_true] at h
    obtain ⟨h1, h2⟩ := h
    rw [Bool.not_eq_true', List.any_eq_false] at h1
    intro p hp
    rcases List.mem_cons.mp hp with hpa | hpas
    · subst hpa
      have hne := h1 (k, v) (by simp)
      intro he
      simp only [beq_iff_eq] at hne
      exact hne he.symm
    · exact ih h2 p hpas

theorem insertKV_notin (acc : List (String × JVal)) (k : String) (v : JVal)
    (h : ∀ p ∈ acc, p.1 ≠ k) : insertKV acc k v = acc ++ [(k, v)] := by
  induction acc with
  | nil => rfl
  | cons a as ih =>
    obtain ⟨ka, va⟩ := a
    have hka : ka ≠ k := h (ka, va) (by simp)
    simp only [insertKV, if_neg hka, List.cons_append, List.cons.injEq, true_and]
    exact ih (fun p hp => h p (by simp [hp]))

theorem jsize_pos (v : JVal) : 1 ≤ jsize v := by
  cases v <;> simp [jsize]

theorem pValue_num_dispatch (g : Nat) (c : Char) (r : List Char)
    (h : c = '-' ∨ isDigitC c = true) :
    pValue (g + 1) (c :: r) =
      match parseNumber (c :: r) with
      | some (n, r2) => some (JVal.num n, r2)
      | none => none := by
  have hc : (48 ≤ c.toNat ∧ c.toNat ≤ 57) ∨ c.toNat = 45 := by
    rcases h with h | h
    · right; rw [h]; rfl
    · left; simpa [isDigitC] using h
  have e1 : (c == '"') = false := by
    rw [beq_eq_false_iff_ne]; rintro rfl; revert hc; decide
  have e2 : (c == '{') = false := by
    rw [beq_eq_false_iff_ne]; rintro rfl; revert hc; decide
  have e3 : (c == '[') = false := by
    rw [beq_eq_false_iff_ne]; rintro rfl; revert hc; decide
  have e4 : (c == 't') = false := by
    rw [beq_eq_false_iff_ne]; rintro rfl; revert hc; decide
  have e5 : (c == 'f') = false := by
    rw [beq_eq_false_iff_ne]; rintro rfl; revert hc; decide
  have e6 : (c == 'n') = false := by
    rw [beq_eq_false_iff_ne]; rintro rfl; revert hc; decide
  have e7 : (c == '-' || isDigitC c) = true := by
    rcases h with h | h
    · simp [h]
    · simp [h]
  simp only [pValue, e1, e2, e3, e4, e5, e6, e7, Bool.false_eq_true, if_false,
    if_true]

theorem rt_num (n : Int) (g : Nat) (rest : List Char) (hsep : sepOk rest) :
    pValue (g + 1) (serV (JVal.num n) ++ rest) = some (JVal.num n, rest) := by
  have hser : serV (JVal.num n) = serInt n := rfl
  rw [hser]
  have hpn := parseNumber_serInt n rest (sepOk_digit hsep) (sepOk_floatFollows hsep)
  cases n with
  | ofNat m =>
    obtain ⟨_, hdig, d, t, heq, _⟩ := natDigs_spec m
    have hd : isDigitC d = true := hdig d (by rw [heq]; simp)
    have hshape : serInt (Int.ofNat m) ++ rest = d :: (t ++ rest) := by
      show natDigs m ++ rest = d :: (t ++ rest)
      rw [heq]; rfl
    rw [hshape, pValue_num_dispatch g d (t ++ rest) (Or.inr hd), ← hshape, hpn]
  | negSucc m =>
    have hshape : serInt (Int.negSucc m) ++ rest = '-' :: (natDigs (m + 1) ++ rest) :=
      rfl
    rw [hshape, pValue_num_dispatch g '-' _ (Or.inl rfl), ← hshape, hpn]

theorem rt_str (s : String) (g : Nat) (rest : List Char) :
    pValue (g + 1) (serV (JVal.str s) ++ rest) = some (JVal.str s, rest) := by
  have hser : serV (JVal.str s) ++ rest =
      '"' :: (escString s.data ++ ('"' :: rest)) := by
    show ('"' :: (escString s.data ++ ['"'])) ++ rest = _
    simp [List.cons_append, List.append_assoc]
  rw [hser]
  have hred : pValue (g + 1) ('"' :: (escString s.data ++ ('"' :: rest))) =
      (match parseStringBody ((escString s.data ++ ('"' :: rest)).length + 1)
          (escString s.data ++ ('"' :: rest)) with
        | some (cs, r2) => some (JVal.str (String.mk cs), r2)
        | none => none) := rfl
  rw [hred, parseStringBody_rt s.data _ rest (by simp [List.length_append])]






theorem rt_arr_cons (g : Nat) (x : JVal) (xs : List JVal) (rest : List Char)
    (hwf : jvalWFL (x :: xs) = true) (hsz : jsizeL (x :: xs) ≤ g)
    (hitems : ∀ f acc rest2 y ys, x :: xs = y :: ys → jvalWFL (x :: xs) = true →
      jsizeL (x :: xs) ≤ f →
      pItems f (serV y ++ (serArrTail ys ++ rest2)) acc
        = some (JVal.arr (acc ++ x :: xs), rest2)) :
    pValue (g + 1) (serV (JVal.arr (x :: xs)) ++ rest)
      = some (JVal.arr (x :: xs), rest) := by
  have hshape : serV (JVal.arr (x :: xs)) ++ rest =
      '[' :: (serV x ++ (serArrTail xs ++ rest)) := by
    show ('[' :: (serV x ++ serArrTail xs)) ++ rest = _
    simp [List.cons_append, List.append_assoc]
  rw [hshape]
  have hred : pValue (g + 1) ('[' :: (serV x ++ (serArrTail xs ++ rest))) =
      (match skipWs (serV x ++ (serArrTail xs ++ rest)) with
        | ']' :: r2 => some (JVal.arr [], r2)
        | r1 => pItems g r1 []) := rfl
  rw [hred]
  obtain ⟨c, t, hser, hws, hbr, hbk⟩ := serV_head x
  have hx : serV x ++ (serArrTail xs ++ rest) = c :: (t ++ (serArrTail xs ++ rest)) := by
    rw [hser]; rfl
  rw [hx, skipWs_cons_false hws]
  split
  · rename_i r2 heq
    simp only [List.cons.injEq] at heq
    exact absurd heq.1 hbk
  · rw [← hx]
    have := hitems g [] rest x xs rfl hwf hsz
    simpa using this

theorem rt_obj_cons (g : Nat) (k : String) (v : JVal) (tl : List (String × JVal))
    (rest : List Char)
    (hnd : noDupKeys ((k, v) :: tl) = true) (hwm : jvalWFM ((k, v) :: tl) = true)
    (hsz : jsizeM ((k, v) :: tl) ≤ g)
    (hmem : ∀ f acc rest2 k2 v2 tl2, (k, v) :: tl = (k2, v2) :: tl2 →
      jvalWFM ((k, v) :: tl) = true → noDupKeys (acc ++ (k, v) :: tl) = true →
      jsizeM ((k, v) :: tl) ≤ f →
      pMembers f
        ('"' :: (escString k2.data ++ ('"' :: ':' :: (serV v2 ++ (serObjTail tl2 ++ rest2)))))
        acc = some (JVal.obj (acc ++ (k, v) :: tl), rest2)) :
    pValue (g + 1) (serV (JVal.obj ((k, v) :: tl)) ++ rest)
      = some (JVal.obj ((k, v) :: tl), rest) := by
  have hshape : serV (JVal.obj ((k, v) :: tl)) ++ rest =
      '{' :: ('"' :: (escString k.data ++ ('"' :: ':' :: (serV v ++ (serObjTail tl ++ rest))))) := by
    show ('{' :: '"' :: (escString k.data ++ ('"' :: ':' :: (serV v ++ serObjTail tl)))) ++ rest = _
    simp [List.cons_append, List.append_assoc]
  rw [hshape]
  have hred : pValue (g + 1)
      ('{' :: ('"' :: (escString k.data ++ ('"' :: ':' :: (serV v ++ (serObjTail tl ++ rest)))))) =
      pMembers g
        ('"' :: (escString k.data ++ ('"' :: ':' :: (serV v ++ (serObjTail tl ++ rest))))) [] := rfl
  rw [hred]
  have := hmem g [] rest k v tl rfl hwm (by simpa using hnd) hsz
  simpa using this






theorem rt_items_cons (g : Nat) (x : JVal) (xs : List JVal) (acc : List JVal)
    (rest : List Char)
    (hwf : jvalWFL (x :: xs) = true) (hsz : jsizeL (x :: xs) ≤ g + 1)
    (ihx : ∀ f rest2, jvalWF x = true → jsize x ≤ f → sepOk rest2 →
      pValue f (serV x ++ rest2) = some (x, rest2))
    (ihxs : ∀ f acc2 rest2 y ys, xs = y :: ys → jvalWFL xs = true → jsizeL xs ≤ f →
      pItems f (serV y ++ (serArrTail ys ++ rest2)) acc2
        = some (JVal.arr (acc2 ++ xs), rest2)) :
    pItems (g + 1) (serV x ++ (serArrTail xs ++ rest)) acc
      = some (JVal.arr (acc ++ x :: xs), rest) := by
  have hwf2 : jvalWF x = true ∧ jvalWFL xs = true := by
    simpa [jvalWFL, Bool.and_eq_true] using hwf
  have hsz2 : 1 + jsize x + jsizeL xs ≤ g + 1 := hsz
  have hred : pItems (g + 1) (serV x ++ (serArrTail xs ++ rest)) acc =
      (match pValue g (serV x ++ (serArrTail xs ++ rest)) with
        | some (v, r) =>
          (match skipWs r with
            | ',' :: r2 => pItems g (skipWs r2) (acc ++ [v])
            | ']' :: r2 => some (JVal.arr (acc ++ [v]), r2)
            | _ => none)
        | none => none) := rfl
  rw [hred, ihx g (serArrTail xs ++ rest) hwf2.1 (by omega) (sepOk_serArrTail xs rest)]
  cases xs with
  | nil => rfl
  | cons y ys =>
    have htail : serArrTail (y :: ys) ++ rest = ',' :: (serV y ++ (serArrTail ys ++ rest)) := by
      show (',' :: (serV y ++ serArrTail ys)) ++ rest = _
      simp [List.cons_append, List.append_assoc]
    rw [htail]
    obtain ⟨c, t, hser, hws, hbr, hbk⟩ := serV_head y
    have hy : serV y ++ (serArrTail ys ++ rest) = c :: (t ++ (serArrTail ys ++ rest)) := by
      rw [hser]; rfl
    show pItems g (skipWs (serV y ++ (serArrTail ys ++ rest))) (acc ++ [x])
      = some (JVal.arr (acc ++ x :: y :: ys), rest)
    rw [hy, skipWs_cons_false hws, ← hy,
      ihxs g (acc ++ [x]) rest y ys rfl hwf2.2 (by omega)]
    rw [← List.append_cons]

theorem rt_members_cons (g : Nat) (k : String) (v : JVal)
    (ms : List (String × JVal)) (acc : List (String × JVal)) (rest : List Char)
    (hwm : jvalWFM ((k, v) :: ms) = true)
    (hnd : noDupKeys (acc ++ (k, v) :: ms) = true)
    (hsz : jsizeM ((k, v) :: ms) ≤ g + 1)
    (ihv : ∀ f rest2, jvalWF v = true → jsize v ≤ f → sepOk rest2 →
      pValue f (serV v ++ rest2) = some (v, rest2))
    (ihms : ∀ f acc2 rest2 k2 v2 tl2, ms = (k2, v2) :: tl2 → jvalWFM ms = true →
      noDupKeys (acc2 ++ ms) = true → jsizeM ms ≤ f →
      pMembers f
        ('"' :: (escString k2.data ++ ('"' :: ':' :: (serV v2 ++ (serObjTail tl2 ++ rest2)))))
        acc2 = some (JVal.obj (acc2 ++ ms), rest2)) :
    pMembers (g + 1)
      ('"' :: (escString k.data ++ ('"' :: ':' :: (serV v ++ (serObjTail ms ++ rest))))) acc
      = some (JVal.obj (acc ++ (k, v) :: ms), rest) := by
  have hwm2 : jvalWF v = true ∧ jvalWFM ms = true := by
    simpa [jvalWFM, Bool.and_eq_true] using hwm
  have hsz2 : 1 + jsize v + jsizeM ms ≤ g + 1 := hsz
  have hins : insertKV acc k v = acc ++ [(k, v)] :=
    insertKV_notin acc k v (noDupKeys_key_notin acc k v ms hnd)
  have hred2 : pMembers (g + 1)
      ('"' :: (escString k.data ++ ('"' :: ':' :: (serV v ++ (serObjTail ms ++ rest))))) acc
      = (match pValue g (skipWs (serV v ++ (serObjTail ms ++ rest))) with
        | some (vv, r4) =>
          (match skipWs r4 with
            | ',' :: r5 => pMembers g (skipWs r5) (insertKV acc (String.mk k.data) vv)
            | '}' :: r5 => some (JVal.obj (insertKV acc (String.mk k.data) vv), r5)
            | _ => none)
        | none => none) := by
    have hred : pMembers (g + 1)
        ('"' :: (escString k.data ++ ('"' :: ':' :: (serV v ++ (serObjTail ms ++ rest))))) acc =
        (match parseStringBody
            ((escString k.data ++ ('"' :: ':' :: (serV v ++ (serObjTail ms ++ rest)))).length + 1)
            (escString k.data ++ ('"' :: ':' :: (serV v ++ (serObjTail ms ++ rest)))) with
          | some (kk, r2) =>
            (match skipWs r2 with
              | ':' :: r3 =>
                (match pValue g (skipWs r3) with
                  | some (vv, r4) =>
                    (match skipWs r4 with
                      | ',' :: r5 => pMembers g (skipWs r5) (insertKV acc (String.mk kk) vv)
                      | '}' :: r5 => some (JVal.obj (insertKV acc (String.mk kk) vv), r5)
                      | _ => none)
                  | none => none)
              | _ => none)
          | none => none) := rfl
    rw [hred, parseStringBody_rt k.data _ (':' :: (serV v ++ (serObjTail ms ++ rest)))
      (by simp [List.length_append])]
    rfl
  rw [hred2]
  obtain ⟨c, t, hser, hws, hbr, hbk⟩ := serV_head v
  have hv : serV v ++ (serObjTail ms ++ rest) = c :: (t ++ (serObjTail ms ++ rest)) := by
    rw [hser]; rfl
  rw [hv, skipWs_cons_false hws, ← hv,
    ihv g (serObjTail ms ++ rest) hwm2.1 (by omega) (sepOk_serObjTail ms rest)]
  have hkk : String.mk k.data = k := rfl
  cases ms with
  | nil =>
    show some (JVal.obj (insertKV acc k v), rest)
      = some (JVal.obj (acc ++ (k, v) :: []), rest)
    rw [hins]
  | cons p2 ms2 =>
    obtain ⟨k2, v2⟩ := p2
    have htail : serObjTail ((k2, v2) :: ms2) ++ rest =
        ',' :: ('"' :: (escString k2.data ++ ('"' :: ':' :: (serV v2 ++ (serObjTail ms2 ++ rest))))) := by
      show (',' :: '"' :: (escString k2.data ++ ('"' :: ':' :: (serV v2 ++ serObjTail ms2)))) ++ rest = _
      simp [List.cons_append, List.append_assoc]
    rw [htail]
    show pMembers g
        ('"' :: (escString k2.data ++ ('"' :: ':' :: (serV v2 ++ (serObjTail ms2 ++ rest)))))
        (insertKV acc k v)
      = some (JVal.obj (acc ++ (k, v) :: (k2, v2) :: ms2), rest)
    rw [hins]
    have hnd2 : noDupKeys ((acc ++ [(k, v)]) ++ (k2, v2) :: ms2) = true := by
      rw [← List.append_cons]
      exact hnd
    rw [ihms g (acc ++ [(k, v)]) rest k2 v2 ms2 rfl hwm2.2 hnd2 (by omega)]
    rw [← List.append_cons]


theorem rt_value (v0 : JVal) :
    ∀ (f : Nat) (rest : List Char), jvalWF v0 = true → jsize v0 ≤ f → sepOk rest →
      pValue f (serV v0 ++ rest) = some (v0, rest) := by
  refine @JVal.rec
    (fun v => ∀ f rest, jvalWF v = true → jsize v ≤ f → sepOk rest →
      pValue f (serV v ++ rest) = some (v, rest))
    (fun l => ∀ f acc rest x xs, l = x :: xs → jvalWFL l = true → jsizeL l ≤ f →
      pItems f (serV x ++ (serArrTail xs ++ rest)) acc = some (JVal.arr (acc ++ l), rest))
    (fun ms => ∀ f acc rest k v tl, ms = (k, v) :: tl → jvalWFM ms = true →
      noDupKeys (acc ++ ms) = true → jsizeM ms ≤ f →
      pMembers f
        ('"' :: (escString k.data ++ ('"' :: ':' :: (serV v ++ (serObjTail tl ++ rest))))) acc
        = some (JVal.obj (acc ++ ms), rest))
    (fun p => ∀ f rest, jvalWF p.2 = true → jsize p.2 ≤ f → sepOk rest →
      pValue f (serV p.2 ++ rest) = some (p.2, rest))
    ?hnull ?hbool ?hnum ?hstr ?harr ?hobj ?hnil2 ?hcons2 ?hnil3 ?hcons3 ?hmk v0
  case hnull =>
    intro f rest _ hsz _
    cases f with
    | zero => simp [jsize] at hsz
    | succ g => rfl
  case hbool =>
    intro b f rest _ hsz _
    cases f with
    | zero => simp [jsize] at hsz
    | succ g => cases b <;> rfl
  case hnum =>
    intro n f rest _ hsz hsep
    cases f with
    | zero => simp [jsize] at hsz
    | succ g => exact rt_num n g rest hsep
  case hstr =>
    intro s f rest _ hsz _
    cases f with
    | zero => simp [jsize] at hsz
    | succ g => exact rt_str s g rest
  case harr =>
    intro l hitems f rest hwf hsz hsep
    cases l with
    | nil =>
      cases f with
      | zero => simp [jsize] at hsz
      | succ g => rfl
    | cons x xs =>
      cases f with
      | zero => simp [jsize] at hsz
      | succ g =>
        have hsz2 : 1 + jsizeL (x :: xs) ≤ g + 1 := hsz
        exact rt_arr_cons g x xs rest hwf (by omega) hitems
  case hobj =>
    intro m hmem f rest hwf hsz hsep
    cases m with
    | nil =>
      cases f with
      | zero => simp [jsize] at hsz
      | succ g => rfl
    | cons p tl =>
      obtain ⟨k, v⟩ := p
      cases f with
      | zero => simp [jsize] at hsz
      | succ g =>
        obtain ⟨hnd, hwm⟩ : noDupKeys ((k, v) :: tl) = true ∧
            jvalWFM ((k, v) :: tl) = true := by
          simpa [jvalWF, Bool.and_eq_true] using hwf
        have hsz2 : 1 + jsizeM ((k, v) :: tl) ≤ g + 1 := hsz
        exact rt_obj_cons g k v tl rest hnd hwm (by omega) hmem
  case hnil2 =>
    intro f acc rest x xs h
    exact absurd h (by simp)
  case hcons2 =>
    intro x xs ihx ihxs f acc rest y ys hcons hwf hsz
    simp only [List.cons.injEq] at hcons
    obtain ⟨hy, hys⟩ := hcons
    subst hy
    subst hys
    cases f with
    | zero => simp [jsizeL] at hsz
    | succ g => exact rt_items_cons g x xs acc rest hwf hsz ihx ihxs
  case hnil3 =>
    intro f acc rest k v tl h
    exact absurd h (by simp)
  case hcons3 =>
    intro p ms ihp ihms f acc rest k v tl hcons hwm hnd hsz
    obtain ⟨k0, v0⟩ := p
    simp only [List.cons.injEq, Prod.mk.injEq] at hcons
    obtain ⟨⟨hk, hv⟩, htl⟩ := hcons
    subst hk
    subst hv
    subst htl
    cases f with
    | zero => simp [jsizeM] at hsz
    | succ g => exact rt_members_cons g k0 v0 ms acc rest hwm hnd hsz ihp ihms
  case hmk =>
    intro k v ih
    exact ih

theorem sizes_bound (v0 : JVal) : jsize v0 ≤ 2 * (serV v0).length := by
  refine @JVal.rec
    (fun v => jsize v ≤ 2 * (serV v).length)
    (fun l => jsizeL l + 1 ≤ 2 * (serArrTail l).length)
    (fun ms => jsizeM ms + 1 ≤ 2 * (serObjTail ms).length)
    (fun p => jsize p.2 ≤ 2 * (serV p.2).length)
    ?_ ?_ ?_ ?_ ?_ ?_ ?_ ?_ ?_ ?_ ?_ v0
  · simp [jsize, serV]
  · intro b; cases b <;> simp [jsize, serV]
  · intro n
    have h1 : 1 ≤ (serInt n).length := by
      cases n with
      | ofNat m =>
        obtain ⟨_, _, d, t, heq, _⟩ := natDigs_spec m
        show 1 ≤ (natDigs m).length
        rw [heq]
        simp
      | negSucc m => simp [serInt]
    have h2 : jsize (JVal.num n) = 1 := rfl
    have h3 : serV (JVal.num n) = serInt n := rfl
    rw [h2, h3]
    omega
  · intro s; simp [jsize, serV]; omega
  · intro l ih
    cases l with
    | nil => simp [jsize, serV, jsizeL]
    | cons x xs =>
      have h1 : jsize (JVal.arr (x :: xs)) = 1 + jsizeL (x :: xs) := rfl
      have h2 : (serV (JVal.arr (x :: xs))).length =
          1 + ((serV x).length + (serArrTail xs).length) := by
        show ('[' :: (serV x ++ serArrTail xs)).length = _
        simp [List.length_append]
        omega
      have h3 : (serArrTail (x :: xs)).length =
          1 + ((serV x).length + (serArrTail xs).length) := by
        show (',' :: (serV x ++ serArrTail xs)).length = _
        simp [List.length_append]
        omega
      rw [h3] at ih
      rw [h1, h2]
      omega
  · intro m ih
    cases m with
    | nil => simp [jsize, serV, jsizeM]
    | cons p tl =>
      obtain ⟨k, v⟩ := p
      have h1 : jsize (JVal.obj ((k, v) :: tl)) = 1 + jsizeM ((k, v) :: tl) := rfl
      have h2 : (serV (JVal.obj ((k, v) :: tl))).length =
          2 + ((escString k.data).length + (2 + ((serV v).length + (serObjTail tl).length))) := by
        show ('{' :: '"' :: (escString k.data ++ ('"' :: ':' :: (serV v ++ serObjTail tl)))).length = _
        simp [List.length_append]
        omega
      have h3 : (serObjTail ((k, v) :: tl)).length =
          2 + ((escString k.data).length + (2 + ((serV v).length + (serObjTail tl).length))) := by
        show (',' :: '"' :: (escString k.data ++ ('"' :: ':' :: (serV v ++ serObjTail tl)))).length = _
        simp [List.length_append]
        omega
      rw [h3] at ih
      rw [h1, h2]
      omega
  · simp [jsizeL, serArrTail]
  · intro x xs ih1 ih2
    have h1 : jsizeL (x :: xs) = 1 + jsize x + jsizeL xs := rfl
    have h2 : (serArrTail (x :: xs)).length =
        1 + ((serV x).length + (serArrTail xs).length) := by
      show (',' :: (serV x ++ serArrTail xs)).length = _
      simp [List.length_append]
      omega
    rw [h1, h2]
    omega
  · simp [jsizeM, serObjTail]
  · intro p tl ih1 ih2
    obtain ⟨k, v⟩ := p
    have h1 : jsizeM ((k, v) :: tl) = 1 + jsize v + jsizeM tl := rfl
    have h2 : (serObjTail ((k, v) :: tl)).length =
        2 + ((escString k.data).length + (2 + ((serV v).length + (serObjTail tl).length))) := by
      show (',' :: '"' :: (escString k.data ++ ('"' :: ':' :: (serV v ++ serObjTail tl)))).length = _
      simp [List.length_append]
      omega
    have h3 : jsize v ≤ 2 * (serV v).length := ih1
    rw [h1, h2]
    omega
  · intro k v ih
    exact ih

/-- The embedded `json.loads` inverts the serializer on every
well-formed value. -/
theorem json_loads_serV (v : JVal) (h : jvalWF v = true) :
    json_loads (serV v) = some v := by
  unfold json_loads
  obtain ⟨c, t, hser, hws, _, _⟩ := serV_head v
  have hskip : skipWs (serV v) = serV v := by
    rw [hser]
    exact skipWs_cons_false hws t
  rw [hskip]
  have hsz : jsize v ≤ 2 * (serV v).length + 2 := by
    have := sizes_bound v
    omega
  have hrt := rt_value v (2 * (serV v).length + 2) [] h hsz sepOk_nil
  rw [List.append_nil] at hrt
  rw [hrt]
  rfl

/-! ## Lemmas: list utilities for the input validator -/

theorem length_dropWhile_le_my (p : Char → Bool) (l : List Char) :
    (l.dropWhile p).length ≤ l.length := by
  induction l with
  | nil => simp
  | cons a t ih =>
    rw [List.dropWhile_cons]
    by_cases h : p a = true
    · simp only [h, if_true]
      simp
      omega
    · simp only [Bool.not_eq_true] at h
      simp [h]

theorem dedup_replicate_my (n : Nat) (c : Char) (h : 0 < n) :
    (List.replicate n c).dedup = [c] := by
  induction n with
  | zero => omega
  | succ m ih =>
    cases m with
    | zero => simp
    | succ m2 =>
      rw [List.replicate_succ, List.dedup_cons_of_mem (by simp [List.mem_replicate])]
      exact ih (by omega)

theorem dropWhile_replicate_false (p : Char → Bool) (n : Nat) (c : Char)
    (h : p c = false) : (List.replicate n c).dropWhile p = List.replicate n c := by
  cases n with
  | zero => rfl
  | succ m => simp [List.replicate_succ, List.dropWhile_cons, h]

theorem pyStrip_length_le (l : List Char) : (pyStrip l).length ≤ l.length := by
  unfold pyStrip
  rw [List.length_reverse]
  calc ((l.dropWhile pyIsSpace).reverse.dropWhile pyIsSpace).length
      ≤ (l.dropWhile pyIsSpace).reverse.length := length_dropWhile_le_my _ _
    _ = (l.dropWhile pyIsSpace).length := List.length_reverse _
    _ ≤ l.length := length_dropWhile_le_my _ _

theorem pyStrip_replicate (n : Nat) (c : Char) (h : pyIsSpace c = false) :
    pyStrip (List.replicate n c) = List.replicate n c := by
  unfold pyStrip
  rw [dropWhile_replicate_false _ _ _ h, List.reverse_replicate,
    dropWhile_replicate_false _ _ _ h, List.reverse_replicate]

theorem pyFind_eq_none_iff (l : List Char) (c : Char) :
    pyFind l c = none ↔ ∀ a ∈ l, (a == c) = false := by
  unfold pyFind
  exact List.findIdx?_eq_none_iff

theorem pyRfind_eq_none_iff (l : List Char) (c : Char) :
    pyRfind l c = none ↔ ∀ a ∈ l, (a == c) = false := by
  unfold pyRfind
  constructor
  · intro h a ha
    cases hf : l.reverse.findIdx? (fun x => x == c) with
    | none =>
      exact List.findIdx?_eq_none_iff.mp hf a (by simp [ha])
    | some i => rw [hf] at h; exact absurd h (by simp)
  · intro h
    have : l.reverse.findIdx? (fun x => x == c) = none :=
      List.findIdx?_eq_none_iff.mpr (fun a ha => h a (by simpa using ha))
    rw [this]

/-! ## The claims -/

/-- C7.  Extractor round trip: for every valid structured object (an
object value all of whose object nodes have pairwise distinct keys, as
every Python dict does), parsing its standard JSON serialization
recovers it exactly, and the recovery happens on the whole-text fast
path of the extractor. -/
theorem C7_extract_roundtrip (entries : List (String × JVal))
    (h : jvalWF (JVal.obj entries) = true) :
    extract_json_from_text (serV (JVal.obj entries)) = JVal.obj entries ∧
    json_loads (serV (JVal.obj entries)) = some (JVal.obj entries) := by
  have hload := json_loads_serV (JVal.obj entries) h
  refine ⟨?_, hload⟩
  unfold extract_json_from_text
  rw [hload]

/-- Witness for C7 at a concrete meeting record. -/
theorem C7_extract_roundtrip_witness :
    jvalWF (JVal.obj [("meeting_time", JVal.str ("3pm")),
      ("participants", JVal.arr [JVal.str ("A"), JVal.str ("B")]),
      ("topics", JVal.arr [JVal.str ("roadmap")]),
      ("action_items", JVal.arr [])]) = true ∧
    extract_json_from_text (serV (JVal.obj [("meeting_time", JVal.str ("3pm")),
      ("participants", JVal.arr [JVal.str ("A"), JVal.str ("B")]),
      ("topics", JVal.arr [JVal.str ("roadmap")]),
      ("action_items", JVal.arr [])]))
      = JVal.obj [("meeting_time", JVal.str ("3pm")),
        ("participants", JVal.arr [JVal.str ("A"), JVal.str ("B")]),
        ("topics", JVal.arr [JVal.str ("roadmap")]),
        ("action_items", JVal.arr [])] :=
  ⟨rfl, (C7_extract_roundtrip _ (by rfl)).1⟩

/-- C1, counterexample to the claim as stated.  The three-character raw
text consisting of a quote, an opening brace and a quote contains an
opening brace and no closing brace, yet the whole-text parse succeeds
(it is the JSON string containing one brace), so the extractor returns
that string rather than None. -/
theorem C1_counterexample :
    extract_json_from_text ['"', '{', '"'] = JVal.str ("\x7b") ∧
    '{' ∈ ['"', '{', '"'] ∧ '}' ∉ ['"', '{', '"'] ∧
    JVal.str ("\x7b") ≠ JVal.null :=
  ⟨rfl, by decide, by decide, fun h => JVal.noConfusion h⟩

/-- C1, amended.  The extractor first attempts to parse the whole raw
text and returns the parsed value on success; otherwise, when both a
first opening brace and a last closing brace exist, it parses exactly
the slice between them, returning the parsed value on success and None
on failure; when either brace is absent it returns None.  In
particular the empty text and a text with no braces give None, and a
text containing an opening brace but no closing brace gives None
provided the whole-text parse fails (the counterexample shows the
proviso is necessary). -/
theorem C1_extract_two_tier :
    (∀ t v, json_loads t = some v → extract_json_from_text t = v) ∧
    (∀ t, json_loads t = none →
      (pyFind t '{' = none ∨ pyRfind t '}' = none) →
      extract_json_from_text t = JVal.null) ∧
    (∀ t s e, json_loads t = none → pyFind t '{' = some s →
      pyRfind t '}' = some e →
      extract_json_from_text t =
        (match json_loads ((t.drop s).take (e + 1 - s)) with
          | some v => v
          | none => JVal.null)) ∧
    extract_json_from_text [] = JVal.null ∧
    extract_json_from_text ("no braces here".data) = JVal.null ∧
    (∀ t, '{' ∈ t → '}' ∉ t → json_loads t = none →
      extract_json_from_text t = JVal.null) := by
  refine ⟨?_, ?_, ?_, rfl, rfl, ?_⟩
  · intro t v h
    unfold extract_json_from_text
    rw [h]
  · intro t hnone hbr
    unfold extract_json_from_text
    rw [hnone]
    rcases hbr with hbr | hbr
    · rw [hbr]
    · cases hfind : pyFind t '{' with
      | none => rfl
      | some s => rw [hbr]
  · intro t s e hnone hs he
    unfold extract_json_from_text
    rw [hnone, hs, he]
  · intro t hin hout hnone
    unfold extract_json_from_text
    rw [hnone]
    have hr : pyRfind t '}' = none := by
      rw [pyRfind_eq_none_iff]
      intro a ha
      rw [beq_eq_false_iff_ne]
      intro hae
      exact hout (hae ▸ ha)
    cases hfind : pyFind t '{' with
    | none => rfl
    | some s => rw [hr]

/-- Witness for C1 at a concrete input on the whole-text fast path. -/
theorem C1_extract_two_tier_witness :
    json_loads ("\x7b\x7d".data) = some (JVal.obj []) ∧
    extract_json_from_text ("\x7b\x7d".data) = JVal.obj [] :=
  ⟨rfl, C1_extract_two_tier.1 ("\x7b\x7d".data) (JVal.obj []) rfl⟩

/-- C10, counterexample to the claim as stated.  The raw text "null" is
valid JSON serializing the non-mapping value null, but the Python
extractor returns None for it (JSON null is Python None), so the model
client aborts with the extraction-failure message and the Schema
Validator never sees the value. -/
theorem C10_counterexample :
    json_loads ("null".data) = some JVal.null ∧
    JVal.isObj JVal.null = false ∧
    extract_json_from_text ("null".data) = JVal.null ∧
    send_to_ollama
      { template := some ("template"),
        http := HttpResult.response 200 (some [("response", JVal.str ("null"))]) }
      = ((JVal.null,
          some ("AI couldn\x27t extract structured data. Please try rephrasing your notes.")),
         true) :=
  ⟨rfl, rfl, rfl, rfl⟩

/-- C10, amended.  For every text that is valid JSON serializing a
non-mapping value other than null, the extractor returns that value
rather than None, and the Schema Validator then rejects it with the
invalid-data-format reason; for the text "null" the extractor returns
None and the pipeline aborts at the extraction stage instead (see the
counterexample). -/
theorem C10_nonmapping_rejected (t : List Char) (v : JVal)
    (hload : json_loads t = some v) (hobj : v.isObj = false)
    (hnull : v ≠ JVal.null) :
    extract_json_from_text t = v ∧ v ≠ JVal.null ∧
    validate_meeting_data v = (false, ("Invalid data format")) := by
  refine ⟨?_, hnull, ?_⟩
  · unfold extract_json_from_text
    rw [hload]
  · cases v with
    | obj m => simp [JVal.isObj] at hobj
    | null => exact absurd rfl hnull
    | bool b => rfl
    | num n => rfl
    | str s => rfl
    | arr l => rfl

/-- Witness for C10 at the concrete non-mapping text consisting of a
one-element array. -/
theorem C10_nonmapping_rejected_witness :
    json_loads ("[1]".data) = some (JVal.arr [JVal.num 1]) ∧
    extract_json_from_text ("[1]".data) = JVal.arr [JVal.num 1] ∧
    validate_meeting_data (JVal.arr [JVal.num 1]) = (false, ("Invalid data format")) :=
  ⟨rfl,
   (C10_nonmapping_rejected ("[1]".data) (JVal.arr [JVal.num 1]) rfl rfl
     (fun h => JVal.noConfusion h)).1,
   (C10_nonmapping_rejected ("[1]".data) (JVal.arr [JVal.num 1]) rfl rfl
     (fun h => JVal.noConfusion h)).2.2⟩

/-- C2.  The Schema Validator checks, in order and short-circuiting:
mapping-hood, presence of the four required keys in the fixed order
meeting_time, participants, topics, action_items (reporting the first
missing one), list-hood of participants, topics and action_items, then
non-emptiness of participants and of topics.  Empty action_items is
accepted and the value under meeting_time is never inspected: any
mapping with the four keys, a non-empty participants list, a non-empty
topics list and an empty action_items list is Valid, whatever
meeting_time holds. -/
theorem C2_schema_validator :
    (∀ v : JVal, v.isObj = false →
      validate_meeting_data v = (false, ("Invalid data format"))) ∧
    (∀ m, jLookup m ("meeting_time") = none →
      validate_meeting_data (JVal.obj m)
        = (false, ("Missing required field: meeting_time"))) ∧
    (∀ m v1, jLookup m ("meeting_time") = some v1 →
      jLookup m ("participants") = none →
      validate_meeting_data (JVal.obj m)
        = (false, ("Missing required field: participants"))) ∧
    (∀ m v1 v2, jLookup m ("meeting_time") = some v1 →
      jLookup m ("participants") = some v2 →
      jLookup m ("topics") = none →
      validate_meeting_data (JVal.obj m)
        = (false, ("Missing required field: topics"))) ∧
    (∀ m v1 v2 v3, jLookup m ("meeting_time") = some v1 →
      jLookup m ("participants") = some v2 →
      jLookup m ("topics") = some v3 →
      jLookup m ("action_items") = none →
      validate_meeting_data (JVal.obj m)
        = (false, ("Missing required field: action_items"))) ∧
    (∀ m v1 ps v3 v4, jLookup m ("meeting_time") = some v1 →
      jLookup m ("participants") = some ps →
      jLookup m ("topics") = some v3 →
      jLookup m ("action_items") = some v4 →
      ps.isArr = false →
      validate_meeting_data (JVal.obj m)
        = (false, ("Participants must be a list"))) ∧
    (∀ m v1 psl ts v4, jLookup m ("meeting_time") = some v1 →
      jLookup m ("participants") = some (JVal.arr psl) →
      jLookup m ("topics") = some ts →
      jLookup m ("action_items") = some v4 →
      ts.isArr = false →
      validate_meeting_data (JVal.obj m)
        = (false, ("Topics must be a list"))) ∧
    (∀ m v1 psl tsl ai, jLookup m ("meeting_time") = some v1 →
      jLookup m ("participants") = some (JVal.arr psl) →
      jLookup m ("topics") = some (JVal.arr tsl) →
      jLookup m ("action_items") = some ai →
      ai.isArr = false →
      validate_meeting_data (JVal.obj m)
        = (false, ("Action items must be a list"))) ∧
    (∀ m v1 tsl ail, jLookup m ("meeting_time") = some v1 →
      jLookup m ("participants") = some (JVal.arr []) →
      jLookup m ("topics") = some (JVal.arr tsl) →
      jLookup m ("action_items") = some (JVal.arr ail) →
      validate_meeting_data (JVal.obj m)
        = (false, ("At least one participant is required"))) ∧
    (∀ m v1 p psl ail, jLookup m ("meeting_time") = some v1 →
      jLookup m ("participants") = some (JVal.arr (p :: psl)) →
      jLookup m ("topics") = some (JVal.arr []) →
      jLookup m ("action_items") = some (JVal.arr ail) →
      validate_meeting_data (JVal.obj m)
        = (false, ("At least one topic is required"))) ∧
    (∀ v : JVal,
      validate_meeting_data (JVal.obj [("meeting_time", v),
        ("participants", JVal.arr [JVal.str ("A")]),
        ("topics", JVal.arr [JVal.str ("x")]),
        ("action_items", JVal.arr [])]) = (true, ("Valid"))) := by
  refine ⟨?_, ?_, ?_, ?_, ?_, ?_, ?_, ?_, ?_, ?_, fun v => rfl⟩
  · intro v h
    cases v with
    | obj m => simp [JVal.isObj] at h
    | null => rfl
    | bool b => rfl
    | num n => rfl
    | str s => rfl
    | arr l => rfl
  · intro m h1
    simp [validate_meeting_data, required_fields, List.find?, h1]
  · intro m v1 h1 h2
    simp [validate_meeting_data, required_fields, List.find?, h1, h2]
  · intro m v1 v2 h1 h2 h3
    simp [validate_meeting_data, required_fields, List.find?, h1, h2, h3]
  · intro m v1 v2 v3 h1 h2 h3 h4
    simp [validate_meeting_data, required_fields, List.find?, h1, h2, h3, h4]
  · intro m v1 ps v3 v4 h1 h2 h3 h4 hps
    simp [validate_meeting_data, required_fields, List.find?, h1, h2, h3, h4,
      jGetD, hps]
  · intro m v1 psl ts v4 h1 h2 h3 h4 hts
    simp [validate_meeting_data, required_fields, List.find?, h1, h2, h3, h4,
      jGetD, hts, show (JVal.arr psl).isArr = true from rfl]
  · intro m v1 psl tsl ai h1 h2 h3 h4 hai
    simp [validate_meeting_data, required_fields, List.find?, h1, h2, h3, h4,
      jGetD, hai, show (JVal.arr psl).isArr = true from rfl,
      show (JVal.arr tsl).isArr = true from rfl]
  · intro m v1 tsl ail h1 h2 h3 h4
    simp [validate_meeting_data, required_fields, List.find?, h1, h2, h3, h4,
      jGetD, show (JVal.arr ([] : List JVal)).isArr = true from rfl,
      show (JVal.arr tsl).isArr = true from rfl,
      show (JVal.arr ail).isArr = true from rfl,
      show (JVal.arr ([] : List JVal)).arrLen = 0 from rfl]
  · intro m v1 p psl ail h1 h2 h3 h4
    simp [validate_meeting_data, required_fields, List.find?, h1, h2, h3, h4,
      jGetD, show (JVal.arr ([] : List JVal)).isArr = true from rfl,
      show (JVal.arr (p :: psl)).isArr = true from rfl,
      show (JVal.arr ail).isArr = true from rfl,
      show (JVal.arr (p :: psl)).arrLen = psl.length + 1 from rfl,
      show (JVal.arr ([] : List JVal)).arrLen = 0 from rfl]

/-- Witness for C2: the first-missing-field branch at the empty
mapping, and acceptance with meeting_time holding null. -/
theorem C2_schema_validator_witness :
    validate_meeting_data (JVal.obj [])
      = (false, ("Missing required field: meeting_time")) ∧
    validate_meeting_data (JVal.obj [("meeting_time", JVal.null),
      ("participants", JVal.arr [JVal.str ("A")]),
      ("topics", JVal.arr [JVal.str ("x")]),
      ("action_items", JVal.arr [])]) = (true, ("Valid")) :=
  ⟨C2_schema_validator.2.1 [] rfl,
   C2_schema_validator.2.2.2.2.2.2.2.2.2.2 JVal.null⟩

/-- C3.  The Input Validator applies five checks to the trimmed text,
in order and short-circuiting: non-emptiness after trimming, the two
configured length bounds, at least 10 distinct characters ignoring
space, newline and tab, at least 10 whitespace-separated tokens that
are longer than 2 characters and purely alphabetic
(`realWordCount`), and an alphabetic fraction of at least 0.30 (the
exact integer comparison the float test decides); each failure yields
its own reason, the six reasons at the default thresholds are pairwise
distinct, and a text passing all five checks is accepted.  The
function is a pure function of the text and the two thresholds (its
embedding takes exactly those arguments). -/
theorem C3_input_validator (minLen maxLen : Nat) (text : List Char) :
    (pyStrip text = [] →
      validate_meeting_input minLen maxLen text
        = (false, some ("Please enter meeting notes"))) ∧
    (pyStrip text ≠ [] → (pyStrip text).length < minLen →
      validate_meeting_input minLen maxLen text
        = (false, some ("Meeting notes too short. Please enter at least " ++
            toString minLen ++ " characters."))) ∧
    (pyStrip text ≠ [] → minLen ≤ (pyStrip text).length →
      maxLen < (pyStrip text).length →
      validate_meeting_input minLen maxLen text
        = (false, some ("Meeting notes too long. Maximum " ++ toString maxLen ++
            " characters allowed."))) ∧
    (pyStrip text ≠ [] → minLen ≤ (pyStrip text).length →
      (pyStrip text).length ≤ maxLen →
      ((pyStrip text).filter
          (fun c => !(c == ' ' || c == '\n' || c == '\t'))).toFinset.card < 10 →
      validate_meeting_input minLen maxLen text
        = (false, some ("Please enter meaningful meeting notes with actual content (not just repeated characters)."))) ∧
    (pyStrip text ≠ [] → minLen ≤ (pyStrip text).length →
      (pyStrip text).length ≤ maxLen →
      10 ≤ ((pyStrip text).filter
          (fun c => !(c == ' ' || c == '\n' || c == '\t'))).toFinset.card →
      realWordCount (pyStrip text) < 10 →
      validate_meeting_input minLen maxLen text
        = (false, some ("Please enter at least 10 meaningful words in your meeting notes."))) ∧
    (pyStrip text ≠ [] → minLen ≤ (pyStrip text).length →
      (pyStrip text).length ≤ maxLen →
      10 ≤ ((pyStrip text).filter
          (fun c => !(c == ' ' || c == '\n' || c == '\t'))).toFinset.card →
      10 ≤ realWordCount (pyStrip text) →
      10 * alphaCount (pyStrip text) < 3 * (pyStrip text).length →
      validate_meeting_input minLen maxLen text
        = (false, some ("Meeting notes should contain actual text, not just symbols."))) ∧
    (pyStrip text ≠ [] → minLen ≤ (pyStrip text).length →
      (pyStrip text).length ≤ maxLen →
      10 ≤ ((pyStrip text).filter
          (fun c => !(c == ' ' || c == '\n' || c == '\t'))).toFinset.card →
      10 ≤ realWordCount (pyStrip text) →
      3 * (pyStrip text).length ≤ 10 * alphaCount (pyStrip text) →
      validate_meeting_input minLen maxLen text = (true, none)) ∧
    ([("Please enter meeting notes" : String),
      "Meeting notes too short. Please enter at least 50 characters.",
      "Meeting notes too long. Maximum 10000 characters allowed.",
      "Please enter meaningful meeting notes with actual content (not just repeated characters).",
      "Please enter at least 10 meaningful words in your meeting notes.",
      "Meeting notes should contain actual text, not just symbols."].Pairwise (· ≠ ·)) := by
  have hcard : ((pyStrip text).filter
      (fun c => !(c == ' ' || c == '\n' || c == '\t'))).toFinset.card
      = uniqueCharCount (pyStrip text) := by
    rw [uniqueCharCount, List.card_toFinset]
  refine ⟨?_, ?_, ?_, ?_, ?_, ?_, ?_, by decide⟩
  · intro h
    simp [validate_meeting_input, h]
  all_goals
    intro hne
    have htext : text.isEmpty = false := by
      cases text with
      | nil => exact absurd rfl hne
      | cons a t => rfl
    have hstr : (pyStrip text).isEmpty = false := by
      cases hp : pyStrip text with
      | nil => exact absurd hp hne
      | cons a t => rfl
  · intro hlt
    simp [validate_meeting_input, htext, hstr, hlt]
  · intro hge hgt
    have hnl : ¬ ((pyStrip text).length < minLen) := by omega
    simp [validate_meeting_input, htext, hstr, hnl, hgt]
  · intro hge hle hu
    rw [hcard] at hu
    have hnl : ¬ ((pyStrip text).length < minLen) := by omega
    have hng : ¬ ((pyStrip text).length > maxLen) := by omega
    simp [validate_meeting_input, htext, hstr, hnl, hng, hu]
  · intro hge hle hu hw
    rw [hcard] at hu
    have hnl : ¬ ((pyStrip text).length < minLen) := by omega
    have hng : ¬ ((pyStrip text).length > maxLen) := by omega
    have hnu : ¬ (uniqueCharCount (pyStrip text) < 10) := by omega
    simp [validate_meeting_input, htext, hstr, hnl, hng, hnu, hw]
  · intro hge hle hu hw ha
    rw [hcard] at hu
    have hnl : ¬ ((pyStrip text).length < minLen) := by omega
    have hng : ¬ ((pyStrip text).length > maxLen) := by omega
    have hnu : ¬ (uniqueCharCount (pyStrip text) < 10) := by omega
    have hnw : ¬ (realWordCount (pyStrip text) < 10) := by omega
    simp [validate_meeting_input, htext, hstr, hnl, hng, hnu, hnw, ha]
  · intro hge hle hu hw ha
    rw [hcard] at hu
    have hnl : ¬ ((pyStrip text).length < minLen) := by omega
    have hng : ¬ ((pyStrip text).length > maxLen) := by omega
    have hnu : ¬ (uniqueCharCount (pyStrip text) < 10) := by omega
    have hnw : ¬ (realWordCount (pyStrip text) < 10) := by omega
    have hna : ¬ (10 * alphaCount (pyStrip text) < 3 * (pyStrip text).length) := by
      omega
    simp [validate_meeting_input, htext, hstr, hnl, hng, hnu, hnw, hna]

/-- Witness for C3: a concrete 66-character text passing all five
checks is accepted. -/
theorem C3_input_validator_witness :
    validate_meeting_input 50 10000
      ("the quick brown fox jumps over the lazy dogs today here now again".data)
      = (true, none) :=
  (C3_input_validator 50 10000 _).2.2.2.2.2.2.1 (by decide) (by decide)
    (by decide) (by decide) (by decide) (by decide)

theorem dropWhile_replicate_append (p : Char → Bool) (n : Nat) (c : Char)
    (l : List Char) (h : p c = true) :
    (List.replicate n c ++ l).dropWhile p = l.dropWhile p := by
  induction n with
  | zero => rfl
  | succ m ih => simp [List.replicate_succ, List.dropWhile_cons, h, ih]

theorem pyStrip_pad (n : Nat) (c : Char) (l : List Char) (h : pyIsSpace c = true) :
    pyStrip (List.replicate n c ++ l) = pyStrip l := by
  unfold pyStrip
  rw [dropWhile_replicate_append _ _ _ _ h]

theorem filter_replicate_true (p : Char → Bool) (n : Nat) (c : Char)
    (h : p c = true) : (List.replicate n c).filter p = List.replicate n c := by
  induction n with
  | zero => rfl
  | succ m ih => simp [List.replicate_succ, List.filter_cons, h, ih]

theorem isEmpty_false_of_length_pos (l : List Char) (h : 0 < l.length) :
    l.isEmpty = false := by
  cases l with
  | nil => simp at h
  | cons a t => rfl

theorem validate_input_congr (minLen maxLen : Nat) (a b : List Char)
    (hab : pyStrip a = pyStrip b) (ha : a.isEmpty = false) (hb : b.isEmpty = false) :
    validate_meeting_input minLen maxLen a = validate_meeting_input minLen maxLen b := by
  unfold validate_meeting_input
  rw [hab, ha, hb]

/-- C5, amended.  Any string whose raw length is below the minimum is
rejected (as empty or too short), and any string whose trimmed length
exceeds the maximum is rejected as too long.  The raw-length bound on
the long side fails on the code: the validator strips first (see the
counterexample). -/
theorem C5_length_bounds (minLen maxLen : Nat) (s : List Char) :
    (s.length < minLen →
      (validate_meeting_input minLen maxLen s).1 = false ∧
      (validate_meeting_input minLen maxLen s
          = (false, some ("Please enter meeting notes")) ∨
       validate_meeting_input minLen maxLen s
          = (false, some ("Meeting notes too short. Please enter at least " ++
              toString minLen ++ " characters.")))) ∧
    (minLen ≤ maxLen → maxLen < (pyStrip s).length →
      validate_meeting_input minLen maxLen s
        = (false, some ("Meeting notes too long. Maximum " ++ toString maxLen ++
            " characters allowed."))) := by
  constructor
  · intro hlen
    by_cases hstr : pyStrip s = []
    · have hv : validate_meeting_input minLen maxLen s
          = (false, some ("Please enter meeting notes")) := by
        simp [validate_meeting_input, hstr]
      exact ⟨by rw [hv], Or.inl hv⟩
    · have hlt : (pyStrip s).length < minLen :=
        lt_of_le_of_lt (pyStrip_length_le s) hlen
      have htext : s.isEmpty = false := by
        cases s with
        | nil => exact absurd rfl hstr
        | cons a t => rfl
      have hstrb : (pyStrip s).isEmpty = false := by
        cases hp : pyStrip s with
        | nil => exact absurd hp hstr
        | cons a t => rfl
      have hv : validate_meeting_input minLen maxLen s
          = (false, some ("Meeting notes too short. Please enter at least " ++
              toString minLen ++ " characters.")) := by
        simp [validate_meeting_input, htext, hstrb, hlt]
      exact ⟨by rw [hv], Or.inr hv⟩
  · intro hmm hgt
    have hstr : pyStrip s ≠ [] := by
      intro h
      rw [h] at hgt
      simp at hgt
    have htext : s.isEmpty = false := by
      cases s with
      | nil => exact absurd rfl hstr
      | cons a t => rfl
    have hstrb : (pyStrip s).isEmpty = false := by
      cases hp : pyStrip s with
      | nil => exact absurd hp hstr
      | cons a t => rfl
    have hnl : ¬ ((pyStrip s).length < minLen) := by omega
    simp [validate_meeting_input, htext, hstrb, hnl, hgt]

/-- The two parameterized length messages begin with a capital M while
the degenerate-content message begins with P, so no printed bound can
make them coincide. -/
theorem length_msg_ne_degenerate (pre suf : String) (m : Nat)
    (h : ∃ t, pre.data = 'M' :: t) :
    pre ++ toString m ++ suf ≠
    "Please enter meaningful meeting notes with actual content (not just repeated characters)." := by
  intro he
  have hd := congrArg String.data he
  rw [String.data_append, String.data_append] at hd
  obtain ⟨t, ht⟩ := h
  obtain ⟨u, hu⟩ : ∃ u,
      ("Please enter meaningful meeting notes with actual content (not just repeated characters)." : String).data
      = 'P' :: u := ⟨_, rfl⟩
  rw [ht, hu, List.cons_append, List.cons_append] at hd
  exact absurd (List.head_eq_of_cons_eq hd) (by decide)

/-- C6, amended.  A string of a single repeated non-whitespace
character is always rejected, at every length and for every
configuration of the bounds, and its rejection reason is the
degenerate-content one exactly when the length lies within the
configured bounds: below the minimum it is the too-short reason,
above the maximum the too-long reason, and the degenerate-content
reason occurs at no length outside the bounds (the counterexample
shows a short repeated string rejected as too short, not as
degenerate content). -/
theorem C6_repeated_char (minLen maxLen : Nat) (c : Char) (n : Nat)
    (hc : pyIsSpace c = false) (hn : 0 < n) :
    (validate_meeting_input minLen maxLen (List.replicate n c)).1 = false ∧
    (n < minLen →
      validate_meeting_input minLen maxLen (List.replicate n c)
        = (false, some ("Meeting notes too short. Please enter at least " ++
            toString minLen ++ " characters."))) ∧
    (minLen ≤ n → maxLen < n →
      validate_meeting_input minLen maxLen (List.replicate n c)
        = (false, some ("Meeting notes too long. Maximum " ++ toString maxLen ++
            " characters allowed."))) ∧
    (minLen ≤ n → n ≤ maxLen →
      validate_meeting_input minLen maxLen (List.replicate n c)
        = (false, some ("Please enter meaningful meeting notes with actual content (not just repeated characters)."))) ∧
    ((validate_meeting_input minLen maxLen (List.replicate n c)).2
        = some ("Please enter meaningful meeting notes with actual content (not just repeated characters).") →
      minLen ≤ n ∧ n ≤ maxLen) := by
  have hstrip : pyStrip (List.replicate n c) = List.replicate n c :=
    pyStrip_replicate n c hc
  have hlen : (List.replicate n c).length = n := by simp
  have htext : (List.replicate n c).isEmpty = false :=
    isEmpty_false_of_length_pos _ (by rw [hlen]; omega)
  have hstrb : (pyStrip (List.replicate n c)).isEmpty = false := by
    rw [hstrip]; exact htext
  simp only [pyIsSpace, Bool.or_eq_false_iff] at hc
  have hp : (!(c == ' ' || c == '\n' || c == '\t')) = true := by
    simp [hc.1.1.1.1.1, hc.1.1.1.1.2, hc.1.1.1.2]
  have hfilter : (List.replicate n c).filter
      (fun x => !(x == ' ' || x == '\n' || x == '\t')) = List.replicate n c :=
    filter_replicate_true _ n c hp
  have huniq : uniqueCharCount (List.replicate n c) = 1 := by
    unfold uniqueCharCount
    rw [hfilter, dedup_replicate_my n c hn]
    rfl
  have hshort : n < minLen →
      validate_meeting_input minLen maxLen (List.replicate n c)
        = (false, some ("Meeting notes too short. Please enter at least " ++
            toString minLen ++ " characters.")) := by
    intro h1
    simp [validate_meeting_input, htext, hstrb, hstrip, hlen, h1]
  have hlong : ¬ (n < minLen) → n > maxLen →
      validate_meeting_input minLen maxLen (List.replicate n c)
        = (false, some ("Meeting notes too long. Maximum " ++ toString maxLen ++
            " characters allowed.")) := by
    intro h1 h2
    simp [validate_meeting_input, htext, hstrb, hstrip, hlen, h1, h2]
  have hdeg : ¬ (n < minLen) → ¬ (n > maxLen) →
      validate_meeting_input minLen maxLen (List.replicate n c)
        = (false, some ("Please enter meaningful meeting notes with actual content (not just repeated characters).")) := by
    intro h1 h2
    simp [validate_meeting_input, htext, hstrb, hstrip, hlen, h1, h2, huniq]
  refine ⟨?_, ?_, ?_, ?_, ?_⟩
  · by_cases h1 : n < minLen
    · rw [hshort h1]
    · by_cases h2 : n > maxLen
      · rw [hlong h1 h2]
      · rw [hdeg h1 h2]
  · exact hshort
  · intro hge hgt
    exact hlong (by omega) hgt
  · intro hge hle
    exact hdeg (by omega) (by omega)
  · intro hmsg
    by_cases h1 : n < minLen
    · rw [hshort h1] at hmsg
      have heq := Option.some.inj hmsg
      exact absurd heq (length_msg_ne_degenerate _ _ minLen ⟨_, rfl⟩)
    · by_cases h2 : n > maxLen
      · rw [hlong h1 h2] at hmsg
        have heq := Option.some.inj hmsg
        exact absurd heq (length_msg_ne_degenerate _ _ maxLen ⟨_, rfl⟩)
      · exact ⟨by omega, by omega⟩

/-- C5, counterexample to the claim as stated.  A meaningful
66-character text padded with 10001 leading spaces has raw length
10067, strictly greater than the default maximum of 10000, yet the
Input Validator accepts it, because it trims before measuring. -/
theorem C5_counterexample :
    10000 <
      (List.replicate 10001 ' ' ++
        "the quick brown fox jumps over the lazy dogs today here now again".data).length ∧
    validate_meeting_input 50 10000
      (List.replicate 10001 ' ' ++
        "the quick brown fox jumps over the lazy dogs today here now again".data)
      = (true, none) := by
  constructor
  · rw [List.length_append, List.length_replicate]
    omega
  · rw [validate_input_congr 50 10000 _
      ("the quick brown fox jumps over the lazy dogs today here now again".data)
      (pyStrip_pad 10001 ' ' _ (by decide))
      (isEmpty_false_of_length_pos _
        (by rw [List.length_append, List.length_replicate]; omega))
      (by decide)]
    decide

/-- Witness for C5 at a concrete short string. -/
theorem C5_length_bounds_witness :
    (validate_meeting_input 50 10000 ['a', 'a', 'a']).1 = false :=
  ((C5_length_bounds 50 10000 ['a', 'a', 'a']).1 (by decide)).1

/-- C6, counterexample to the claim as stated: five repeated letters
are rejected as too short, not with the degenerate-content reason. -/
theorem C6_counterexample :
    validate_meeting_input 50 10000 (List.replicate 5 'a')
      = (false, some ("Meeting notes too short. Please enter at least 50 characters.")) ∧
    ("Meeting notes too short. Please enter at least 50 characters." : String) ≠
      "Please enter meaningful meeting notes with actual content (not just repeated characters)." :=
  ⟨by decide, by decide⟩

/-- Witness for C6 at 200 repeated letters within the default bounds. -/
theorem C6_repeated_char_witness :
    validate_meeting_input 50 10000 (List.replicate 200 'a')
      = (false, some ("Please enter meaningful meeting notes with actual content (not just repeated characters).")) :=
  (C6_repeated_char 50 10000 'a' 200 (by decide) (by decide)).2.2.2.1 (by decide) (by decide)


/-- C8.  The model client returns a (None, message) pair with a
distinct message for each failure kind: missing prompt template,
request timeout, connection refused, non-success HTTP status, and a
success response lacking the response field; the extractor is never
invoked on any of these, and it runs only after a 200 response whose
JSON body contains the response field. -/
theorem C8_model_client_failures :
    (∀ env : OllamaEnv, env.template = none →
      send_to_ollama env
        = ((JVal.null,
            some ("Prompt template file is missing. Please contact administrator.")),
           false)) ∧
    (∀ tpl, send_to_ollama { template := some tpl, http := HttpResult.timeout }
        = ((JVal.null,
            some ("Request took too long. Please try with shorter meeting notes.")),
           false)) ∧
    (∀ tpl, send_to_ollama { template := some tpl, http := HttpResult.connectionError }
        = ((JVal.null,
            some ("Cannot connect to AI service. Make sure Ollama is running.")),
           false)) ∧
    (∀ tpl code body, code ≠ 200 →
      send_to_ollama { template := some tpl, http := HttpResult.response code body }
        = ((JVal.null,
            some ("AI service is having issues. Please try again later.")),
           false)) ∧
    (∀ tpl result, jLookup result ("response") = none →
      send_to_ollama ⟨some tpl, HttpResult.response 200 (some result)⟩
        = ((JVal.null,
            some ("Unexpected response from AI. Please try again.")),
           false)) ∧
    ([("Prompt template file is missing. Please contact administrator." : String),
      "Request took too long. Please try with shorter meeting notes.",
      "Cannot connect to AI service. Make sure Ollama is running.",
      "AI service is having issues. Please try again later.",
      "Unexpected response from AI. Please try again."].Pairwise (· ≠ ·)) ∧
    (∀ env : OllamaEnv, (send_to_ollama env).2 = true →
      ∃ tpl result rv, env.template = some tpl ∧
        env.http = HttpResult.response 200 (some result) ∧
        jLookup result ("response") = some rv) := by
  refine ⟨?_, fun tpl => rfl, fun tpl => rfl, ?_, ?_, by decide, ?_⟩
  · intro env h
    obtain ⟨tpl, http⟩ := env
    simp only at h
    subst h
    rfl
  · intro tpl code body hcode
    simp [send_to_ollama, hcode]
  · intro tpl result h
    simp [send_to_ollama, h]
  · intro env h
    obtain ⟨tpl, http⟩ := env
    cases tpl with
    | none => simp [send_to_ollama] at h
    | some t =>
      cases http with
      | timeout => simp [send_to_ollama] at h
      | connectionError => simp [send_to_ollama] at h
      | otherException => simp [send_to_ollama] at h
      | response code body =>
        by_cases hc : code = 200
        · subst hc
          cases body with
          | none => simp [send_to_ollama] at h
          | some result =>
            cases hlook : jLookup result ("response") with
            | none => simp [send_to_ollama, hlook] at h
            | some rv => exact ⟨t, result, rv, rfl, rfl, hlook⟩
        · simp [send_to_ollama, hc] at h

/-- Witness for C8 at the missing-template environment. -/
theorem C8_model_client_failures_witness :
    send_to_ollama { template := none, http := HttpResult.timeout }
      = ((JVal.null,
          some ("Prompt template file is missing. Please contact administrator.")),
         false) :=
  C8_model_client_failures.1 { template := none, http := HttpResult.timeout } rfl

/-- The Schema Validator returns either exactly (True, Valid) or a
failure pair. -/
theorem validate_meeting_data_cases (v : JVal) :
    validate_meeting_data v = (true, ("Valid")) ∨
    (validate_meeting_data v).1 = false := by
  cases v with
  | obj m =>
    unfold validate_meeting_data
    cases hfind : required_fields.find? (fun f => (jLookup m f).isNone) with
    | some f =>
      simp only [hfind]
      exact Or.inr trivial
    | none =>
      simp only [hfind]
      split_ifs <;> first | exact Or.inl rfl | exact Or.inr rfl
  | null => exact Or.inr rfl
  | bool b => exact Or.inr rfl
  | num n => exact Or.inr rfl
  | str s => exact Or.inr rfl
  | arr l => exact Or.inr rfl

/-- C4.  In one execution of the create-meeting POST pipeline, PDF
generation and the database store are invoked only on data for which
the Schema Validator returned Valid, and when schema validation of the
model output fails, neither downstream consumer is invoked. -/
theorem C4_validated_before_downstream (notes : List Char) (env : PipelineEnv) :
    (∀ d fn, Event.callGeneratePdf d fn ∈ (create_meeting_post notes env).2 →
      validate_meeting_data d = (true, ("Valid"))) ∧
    (∀ d fn ok, Event.callAddMeeting d fn ok ∈ (create_meeting_post notes env).2 →
      validate_meeting_data d = (true, ("Valid"))) ∧
    ((validate_meeting_data (send_to_ollama env.ollama).1.1).1 = false →
      ∀ d fn ok, Event.callGeneratePdf d fn ∉ (create_meeting_post notes env).2 ∧
        Event.callAddMeeting d fn ok ∉ (create_meeting_post notes env).2) := by
  rcases hval : validate_meeting_input MIN_TEXT_LENGTH MAX_TEXT_LENGTH (pyStrip notes)
    with ⟨ok, msg⟩
  cases ok with
  | false =>
    have hres : (create_meeting_post notes env).2 = [] := by
      unfold create_meeting_post
      simp only [hval]
      rfl
    rw [hres]
    exact ⟨fun d fn h => absurd h (by simp),
      fun d fn ok h => absurd h (by simp),
      fun hx d fn ok => ⟨by simp, by simp⟩⟩
  | true =>
    rcases hsend : send_to_ollama env.ollama with ⟨⟨md, err⟩, flag⟩
    have hmd1 : (send_to_ollama env.ollama).1.1 = md := by rw [hsend]
    cases err with
    | some e =>
      have hres : (create_meeting_post notes env).2 = [Event.callOllama] := by
        unfold create_meeting_post
        simp only [hval, hsend]
        rfl
      rw [hres]
      exact ⟨fun d fn h => absurd h (by simp),
        fun d fn ok h => absurd h (by simp),
        fun hx d fn ok => ⟨by simp, by simp⟩⟩
    | none =>
      cases hmd : md.isNull with
      | true =>
        have hres : (create_meeting_post notes env).2 = [Event.callOllama] := by
          unfold create_meeting_post
          simp only [hval, hsend, hmd]
          rfl
        rw [hres]
        exact ⟨fun d fn h => absurd h (by simp),
          fun d fn ok h => absurd h (by simp),
          fun hx d fn ok => ⟨by simp, by simp⟩⟩
      | false =>
        rcases hv2 : validate_meeting_data md with ⟨ok2, msg2⟩
        cases ok2 with
        | false =>
          have hres : (create_meeting_post notes env).2 = [Event.callOllama] := by
            unfold create_meeting_post
            simp only [hval, hsend, hmd, hv2]
            rfl
          rw [hres]
          exact ⟨fun d fn h => absurd h (by simp),
            fun d fn ok h => absurd h (by simp),
            fun hx d fn ok => ⟨by simp, by simp⟩⟩
        | true =>
          have hvalid : validate_meeting_data md = (true, ("Valid")) := by
            rcases validate_meeting_data_cases md with h | h
            · exact h
            · rw [hv2] at h
              simp at h
          cases hpdf : env.pdfError with
          | some e =>
            have hres : (create_meeting_post notes env).2 =
                [Event.callOllama, Event.callGeneratePdf md env.filename] := by
              unfold create_meeting_post
              simp only [hval, hsend, hmd, hv2, hpdf]
              rfl
            rw [hres]
            refine ⟨?_, ?_, fun hx => absurd hx (by simp)⟩
            · intro d fn hmem
              simp only [List.mem_cons, List.not_mem_nil, or_false] at hmem
              rcases hmem with hmem | hmem
              · exact absurd hmem (by simp)
              · obtain ⟨rfl, rfl⟩ : d = md ∧ fn = env.filename := by
                  simpa using hmem
                exact hvalid
            · intro d fn ok hmem
              simp only [List.mem_cons, List.not_mem_nil, or_false] at hmem
              rcases hmem with hmem | hmem
              · exact absurd hmem (by simp)
              · exact absurd hmem (by simp)
          | none =>
            have hres : (create_meeting_post notes env).2 =
                [Event.callOllama, Event.callGeneratePdf md env.filename,
                 Event.callAddMeeting md env.filename env.dbRaises] := by
              unfold create_meeting_post
              simp only [hval, hsend, hmd, hv2, hpdf]
              rfl
            rw [hres]
            refine ⟨?_, ?_, fun hx => absurd hx (by simp)⟩
            · intro d fn hmem
              simp only [List.mem_cons, List.not_mem_nil, or_false] at hmem
              rcases hmem with hmem | hmem | hmem
              · exact absurd hmem (by simp)
              · obtain ⟨rfl, rfl⟩ : d = md ∧ fn = env.filename := by
                  simpa using hmem
                exact hvalid
              · exact absurd hmem (by simp)
            · intro d fn ok hmem
              simp only [List.mem_cons, List.not_mem_nil, or_false] at hmem
              rcases hmem with hmem | hmem | hmem
              · exact absurd hmem (by simp)
              · exact absurd hmem (by simp)
              · obtain ⟨rfl, rfl, rfl⟩ :
                    d = md ∧ fn = env.filename ∧ ok = env.dbRaises := by
                  simpa using hmem
                exact hvalid






/-- C9.  Persistence failure does not fail the request: the response of
the create-meeting POST pipeline is identical whether or not the
database save raises, and whenever the pipeline reaches the database
save at all, the response is the success page rendering the validated
data with the generated PDF. -/
theorem C9_persistence_best_effort (notes : List Char) (env : PipelineEnv) :
    ((create_meeting_post notes { env with dbRaises := true }).1
      = (create_meeting_post notes { env with dbRaises := false }).1) ∧
    (∀ d fn ok, Event.callAddMeeting d fn ok ∈ (create_meeting_post notes env).2 →
      (create_meeting_post notes env).1
        = Response.renderResult d env.filename
            ("Meeting report generated successfully!")) := by
  rcases hval : validate_meeting_input MIN_TEXT_LENGTH MAX_TEXT_LENGTH (pyStrip notes)
    with ⟨ok, msg⟩
  cases ok with
  | false =>
    constructor
    · unfold create_meeting_post
      simp only [hval]
      rfl
    · have hres : (create_meeting_post notes env).2 = [] := by
        unfold create_meeting_post
        simp only [hval]
        rfl
      rw [hres]
      intro d fn ok h
      exact absurd h (by simp)
  | true =>
    rcases hsend : send_to_ollama env.ollama with ⟨⟨md, err⟩, flag⟩
    have hsend2 : ∀ b : Bool, send_to_ollama ({ env with dbRaises := b } : PipelineEnv).ollama
        = ((md, err), flag) := fun b => hsend
    cases err with
    | some e =>
      constructor
      · unfold create_meeting_post
        simp only [hval, hsend2]
      · have hres : (create_meeting_post notes env).2 = [Event.callOllama] := by
          unfold create_meeting_post
          simp only [hval, hsend]
          rfl
        rw [hres]
        intro d fn ok h
        exact absurd h (by simp)
    | none =>
      cases hmd : md.isNull with
      | true =>
        constructor
        · unfold create_meeting_post
          simp only [hval, hsend2, hmd]
          rfl
        · have hres : (create_meeting_post notes env).2 = [Event.callOllama] := by
            unfold create_meeting_post
            simp only [hval, hsend, hmd]
            rfl
          rw [hres]
          intro d fn ok h
          exact absurd h (by simp)
      | false =>
        rcases hv2 : validate_meeting_data md with ⟨ok2, msg2⟩
        cases ok2 with
        | false =>
          constructor
          · unfold create_meeting_post
            simp only [hval, hsend2, hmd, hv2]
            rfl
          · have hres : (create_meeting_post notes env).2 = [Event.callOllama] := by
              unfold create_meeting_post
              simp only [hval, hsend, hmd, hv2]
              rfl
            rw [hres]
            intro d fn ok h
            exact absurd h (by simp)
        | true =>
          cases hpdf : env.pdfError with
          | some e =>
            constructor
            · unfold create_meeting_post
              simp only [hval, hsend2, hmd, hv2]
            · have hres : (create_meeting_post notes env).2 =
                  [Event.callOllama, Event.callGeneratePdf md env.filename] := by
                unfold create_meeting_post
                simp only [hval, hsend, hmd, hv2, hpdf]
                rfl
              rw [hres]
              intro d fn ok h
              simp only [List.mem_cons, List.not_mem_nil, or_false] at h
              rcases h with h | h
              · exact absurd h (by simp)
              · exact absurd h (by simp)
          | none =>
            constructor
            · unfold create_meeting_post
              simp only [hval, hsend2, hmd, hv2]
              rfl
            · have hres2 : create_meeting_post notes env =
                  (Response.renderResult md env.filename
                    ("Meeting report generated successfully!"),
                   [Event.callOllama, Event.callGeneratePdf md env.filename,
                    Event.callAddMeeting md env.filename env.dbRaises]) := by
                unfold create_meeting_post
                simp only [hval, hsend, hmd, hv2, hpdf]
                rfl
              rw [hres2]
              intro d fn ok h
              simp only [List.mem_cons, List.not_mem_nil, or_false] at h
              rcases h with h | h | h
              · exact absurd h (by simp)
              · exact absurd h (by simp)
              · obtain ⟨rfl, rfl, rfl⟩ :
                    d = md ∧ fn = env.filename ∧ ok = env.dbRaises := by
                  simpa using h
                rfl



/-- Witness for C4: in a concrete full pipeline run the PDF call
carries data the Schema Validator accepted. -/
theorem C4_validated_before_downstream_witness :
    validate_meeting_data (JVal.obj [("meeting_time", JVal.str ("3pm")),
      ("participants", JVal.arr [JVal.str ("A")]),
      ("topics", JVal.arr [JVal.str ("B")]),
      ("action_items", JVal.arr [])]) = (true, ("Valid")) :=
  (C4_validated_before_downstream
    ("the quick brown fox jumps over the lazy dogs today here now again".data)
    (PipelineEnv.mk
      (OllamaEnv.mk (some ("tpl"))
        (HttpResult.response 200 (some [("response",
          JVal.str ("\x7b\"meeting_time\":\"3pm\",\"participants\":[\"A\"],\"topics\":[\"B\"],\"action_items\":[]\x7d"))])))
      none ("r.pdf") true)).1
    (JVal.obj [("meeting_time", JVal.str ("3pm")),
      ("participants", JVal.arr [JVal.str ("A")]),
      ("topics", JVal.arr [JVal.str ("B")]),
      ("action_items", JVal.arr [])])
    ("r.pdf")
    (by
      have hev : (create_meeting_post
          ("the quick brown fox jumps over the lazy dogs today here now again".data)
          (PipelineEnv.mk
      (OllamaEnv.mk (some ("tpl"))
        (HttpResult.response 200 (some [("response",
          JVal.str ("\x7b\"meeting_time\":\"3pm\",\"participants\":[\"A\"],\"topics\":[\"B\"],\"action_items\":[]\x7d"))])))
      none ("r.pdf") true)).2
          = [Event.callOllama,
             Event.callGeneratePdf (JVal.obj [("meeting_time", JVal.str ("3pm")),
               ("participants", JVal.arr [JVal.str ("A")]),
               ("topics", JVal.arr [JVal.str ("B")]),
               ("action_items", JVal.arr [])]) ("r.pdf"),
             Event.callAddMeeting (JVal.obj [("meeting_time", JVal.str ("3pm")),
               ("participants", JVal.arr [JVal.str ("A")]),
               ("topics", JVal.arr [JVal.str ("B")]),
               ("action_items", JVal.arr [])]) ("r.pdf") true] := rfl
      rw [hev]
      exact List.Mem.tail _ (List.Mem.head _))

/-- Witness for C9: a concrete run in which the database save raises
still responds with the success page and the generated PDF. -/
theorem C9_persistence_best_effort_witness :
    (create_meeting_post
        ("the quick brown fox jumps over the lazy dogs today here now again".data)
        (PipelineEnv.mk
      (OllamaEnv.mk (some ("tpl"))
        (HttpResult.response 200 (some [("response",
          JVal.str ("\x7b\"meeting_time\":\"3pm\",\"participants\":[\"A\"],\"topics\":[\"B\"],\"action_items\":[]\x7d"))])))
      none ("r.pdf") true)).1
      = Response.renderResult (JVal.obj [("meeting_time", JVal.str ("3pm")),
          ("participants", JVal.arr [JVal.str ("A")]),
          ("topics", JVal.arr [JVal.str ("B")]),
          ("action_items", JVal.arr [])]) ("r.pdf")
          ("Meeting report generated successfully!") :=
  (C9_persistence_best_effort
    ("the quick brown fox jumps over the lazy dogs today here now again".data)
    (PipelineEnv.mk
      (OllamaEnv.mk (some ("tpl"))
        (HttpResult.response 200 (some [("response",
          JVal.str ("\x7b\"meeting_time\":\"3pm\",\"participants\":[\"A\"],\"topics\":[\"B\"],\"action_items\":[]\x7d"))])))
      none ("r.pdf") true)).2
    (JVal.obj [("meeting_time", JVal.str ("3pm")),
      ("participants", JVal.arr [JVal.str ("A")]),
      ("topics", JVal.arr [JVal.str ("B")]),
      ("action_items", JVal.arr [])])
    ("r.pdf") true
    (by
      have hev : (create_meeting_post
          ("the quick brown fox jumps over the lazy dogs today here now again".data)
          (PipelineEnv.mk
      (OllamaEnv.mk (some ("tpl"))
        (HttpResult.response 200 (some [("response",
          JVal.str ("\x7b\"meeting_time\":\"3pm\",\"participants\":[\"A\"],\"topics\":[\"B\"],\"action_items\":[]\x7d"))])))
      none ("r.pdf") true)).2
          = [Event.callOllama,
             Event.callGeneratePdf (JVal.obj [("meeting_time", JVal.str ("3pm")),
               ("participants", JVal.arr [JVal.str ("A")]),
               ("topics", JVal.arr [JVal.str ("B")]),
               ("action_items", JVal.arr [])]) ("r.pdf"),
             Event.callAddMeeting (JVal.obj [("meeting_time", JVal.str ("3pm")),
               ("participants", JVal.arr [JVal.str ("A")]),
               ("topics", JVal.arr [JVal.str ("B")]),
               ("action_items", JVal.arr [])]) ("r.pdf") true] := rfl
      rw [hev]
      exact List.Mem.tail _ (List.Mem.tail _ (List.Mem.head _)))

end MinuteMind
